import Mathlib

/-!
Verification of the vertical-profile conversion and averaging-kernel smoothing
engine of `src/libharp/harp-vertical-profiles.c`.

The C code works on IEEE-754 `double` arrays.  We embed the NaN-aware parts
over `Option ℚ` (`none` plays the role of NaN, and every arithmetic operation
propagates it, as IEEE arithmetic does for the operations the code uses), and
the transcendental parts (`log`/`exp` based hydrostatic integration) over `ℝ`.
C `while` loops are embedded as fuel-indexed structural recursions; each one is
invoked with enough fuel that the fuel-out case is never reached (the fuel-out
result coincides with the loop-guard-false result, and lemmas carry the
corresponding fuel bound).
-/

namespace Harp

/-- A C `double` restricted to the values the NaN-aware integrators see:
`none` is NaN, `some q` a finite rational. -/
abbrev Qn := Option ℚ

/-- NaN-propagating addition (IEEE `+` on the embedded fragment). -/
def qadd : Qn → Qn → Qn
  | some a, some b => some (a + b)
  | _, _ => none

/-- NaN-propagating subtraction. -/
def qsub : Qn → Qn → Qn
  | some a, some b => some (a - b)
  | _, _ => none

/-- NaN-propagating multiplication (the code never multiplies NaN by zero in a
way whose IEEE result would differ from propagation). -/
def qmul : Qn → Qn → Qn
  | some a, some b => some (a * b)
  | _, _ => none

/-- `x > c` on doubles: false when `x` is NaN (IEEE comparison semantics). -/
def qgt (x : Qn) (c : ℚ) : Bool :=
  match x with
  | some v => decide (c < v)
  | none => false

/-- `x <= c` on doubles: false when `x` is NaN. -/
def qle (x : Qn) (c : ℚ) : Bool :=
  match x with
  | some v => decide (v ≤ c)
  | none => false

/-! ### Column integrators (`harp-vertical-profiles.c:332-545`) -/

/-- `harp_profile_column_from_partial_column`: sum the non-NaN partial columns;
NaN when every contribution was NaN.  The accumulator pairs the running
`column` with the `empty` flag, exactly as in the C loop. -/
def harp_profile_column_from_partial_column (partial_column_profile : List Qn) : Qn :=
  let r := partial_column_profile.foldl
    (fun (acc : ℚ × Bool) x =>
      match x with
      | none => acc
      | some v => (acc.1 + v, false))
    (0, true)
  if r.2 then none else some r.1

/-- `harp_profile_tropo_column_from_partial_column_and_altitude`: levels are
`(partial_column, (lower_altitude_bound, upper_altitude_bound))`. -/
def harp_profile_tropo_column_from_partial_column_and_altitude
    (partial_column_profile : List Qn) (altitude_bounds : List (ℚ × ℚ))
    (tropopause_altitude : ℚ) : Qn :=
  let r := (partial_column_profile.zip altitude_bounds).foldl
    (fun (acc : ℚ × Bool) pb =>
      match pb.1 with
      | none => acc
      | some v =>
        if pb.2.1 < tropopause_altitude then
          if pb.2.2 ≤ tropopause_altitude then
            (acc.1 + v, false)
          else
            (acc.1 + v * (tropopause_altitude - pb.2.1) / (pb.2.2 - pb.2.1), false)
        else acc)
    (0, true)
  if r.2 then none else some r.1

/-- `harp_profile_strato_column_from_partial_column_and_altitude`, as written in
the source: for a straddling level it adds
`partial * (tropopause - lower) / (upper - lower)`. -/
def harp_profile_strato_column_from_partial_column_and_altitude
    (partial_column_profile : List Qn) (altitude_bounds : List (ℚ × ℚ))
    (tropopause_altitude : ℚ) : Qn :=
  let r := (partial_column_profile.zip altitude_bounds).foldl
    (fun (acc : ℚ × Bool) pb =>
      match pb.1 with
      | none => acc
      | some v =>
        if tropopause_altitude < pb.2.2 then
          if tropopause_altitude ≤ pb.2.1 then
            (acc.1 + v, false)
          else
            (acc.1 + v * (tropopause_altitude - pb.2.1) / (pb.2.2 - pb.2.1), false)
        else acc)
    (0, true)
  if r.2 then none else some r.1

/-- NaN-aware doubles over `ℝ` for the `log`-based integrators. -/
abbrev Rn := Option ℝ

/-- `harp_profile_strato_column_from_partial_column_and_pressure`, as written in
the source: for a straddling level (`lower > tropopause > upper`) it adds
`partial * log(tropopause/lower) / log(upper/lower)`. -/
noncomputable def harp_profile_strato_column_from_partial_column_and_pressure
    (partial_column_profile : List Rn) (pressure_bounds : List (ℝ × ℝ))
    (tropopause_pressure : ℝ) : Rn :=
  let r := (partial_column_profile.zip pressure_bounds).foldl
    (fun (acc : ℝ × Bool) pb =>
      match pb.1 with
      | none => acc
      | some v =>
        if pb.2.2 < tropopause_pressure then
          if pb.2.1 ≤ tropopause_pressure then
            (acc.1 + v, false)
          else
            (acc.1 + v * Real.log (tropopause_pressure / pb.2.1) /
              Real.log (pb.2.2 / pb.2.1), false)
        else acc)
    (0, true)
  if r.2 then none else some r.1

/-! ### Closed forms for the column integrators -/

lemma column_foldl_eq (xs : List Qn) (c : ℚ) (e : Bool) :
    xs.foldl
      (fun (acc : ℚ × Bool) x =>
        match x with
        | none => acc
        | some v => (acc.1 + v, false))
      (c, e)
      = (c + (xs.filterMap id).sum, e && xs.all Option.isNone) := by
  induction xs generalizing c e with
  | nil => simp
  | cons x xs ih =>
    cases x with
    | none => simpa using ih c e
    | some v =>
      simp only [List.foldl_cons, List.filterMap_cons_some, List.sum_cons, List.all_cons,
        Option.isSome_some, id_eq]
      rw [ih]
      simp [add_assoc]

lemma column_closed (xs : List Qn) :
    harp_profile_column_from_partial_column xs =
      if xs.all Option.isNone then none else some ((xs.filterMap id).sum) := by
  unfold harp_profile_column_from_partial_column
  rw [column_foldl_eq]
  by_cases h : xs.all Option.isNone <;> simp [h]

/-- C2: `harp_profile_column_from_partial_column` returns the sum of exactly the
non-NaN entries, and NaN precisely when every entry is NaN (including the empty
profile); in particular it maps `[NaN,1.0,2.0,NaN,3.0]` to `6.0` and
`[NaN,NaN]` to NaN. -/
theorem C2_column_from_partial_column_sums_non_nan :
    (∀ xs : List Qn,
      harp_profile_column_from_partial_column xs =
        if xs.all Option.isNone then none else some ((xs.filterMap id).sum)) ∧
    harp_profile_column_from_partial_column [none, some 1, some 2, none, some 3] = some 6 ∧
    harp_profile_column_from_partial_column [none, none] = none := by
  refine ⟨column_closed, ?_, ?_⟩
  · simp [column_closed]
    norm_num
  · simp [column_closed]

/-- C1: evidence of the code bug in the stratospheric column integrators.  For
the single-level profile `partial_column = [1]`, `altitude_bounds = [(0,10)]`,
`tropopause_altitude = 3`, the source's stratospheric integrator returns the
*tropospheric* fraction `3/10` instead of the claimed complement `7/10`
(contradicting its own doc comment, which says the straddling level is "scaled
to the amount above the tropopause"); hence tropospheric plus stratospheric
columns give `6/10`, not the total column `1`.  Likewise, the pressure-bounded
stratospheric integrator on `pressure_bounds = [(100,50)]`,
`tropopause_pressure = 70` returns `log(70/100)/log(50/100)`, not the claimed
complement `1 - log(70/100)/log(50/100)`. -/
theorem C1_strato_column_uses_tropospheric_fraction :
    harp_profile_strato_column_from_partial_column_and_altitude [some 1] [(0, 10)] 3 =
        some (3 / 10) ∧
    harp_profile_tropo_column_from_partial_column_and_altitude [some 1] [(0, 10)] 3 =
        some (3 / 10) ∧
    harp_profile_column_from_partial_column [some 1] = some 1 ∧
    (3 / 10 : ℚ) + 3 / 10 ≠ 1 ∧
    harp_profile_strato_column_from_partial_column_and_pressure [some 1] [(100, 50)] 70 =
        some (Real.log (7 / 10) / Real.log (1 / 2)) ∧
    Real.log (7 / 10) / Real.log (1 / 2) ≠ 1 - Real.log (7 / 10) / Real.log (1 / 2) := by
  refine ⟨?_, ?_, ?_, by norm_num, ?_, ?_⟩
  · unfold harp_profile_strato_column_from_partial_column_and_altitude
    norm_num
  · unfold harp_profile_tropo_column_from_partial_column_and_altitude
    norm_num
  · simp [column_closed]
  · unfold harp_profile_strato_column_from_partial_column_and_pressure
    norm_num
  · intro h
    have h5 : Real.log (1 / 2) < 0 := by
      have := Real.log_neg (x := 1 / 2) (by norm_num) (by norm_num)
      simpa using this
    have h2 : 2 * Real.log (7 / 10) = Real.log (1 / 2) := by
      have hdiv : Real.log (7 / 10) / Real.log (1 / 2) = 1 / 2 := by linarith
      field_simp at hdiv
      linarith
    have h49 : Real.log ((7 : ℝ) / 10 * (7 / 10)) = 2 * Real.log (7 / 10) := by
      rw [Real.log_mul (by norm_num) (by norm_num)]
      ring
    have hlt : Real.log ((7 : ℝ) / 10 * (7 / 10)) < Real.log (1 / 2) := by
      apply Real.log_lt_log (by norm_num)
      norm_num
    rw [h49, h2] at hlt
    exact lt_irrefl _ hlt

/-! ### Tropopause locator (`harp-vertical-profiles.c:197-275`)

The three C `while` loops become fuel-indexed recursions; every call site
passes fuel `n`, which exceeds the number of iterations each loop can make, and
the fuel-out result coincides with the guard-false result. -/

/-- Modelled from the spec: the constant `EPSILON` is defined in
`harp-internal.h`, which is not part of the sources; the spec describes it as
the guard that makes "zero-height layers (duplicate altitude values)" be
"skipped for lapse-rate computation".  We fix the customary tiny positive
value `1e-10`; all theorems below are robust to any positive value well below
the layer heights involved. -/
def EPSILON : ℚ := 1 / 10 ^ 10

/-- The initial `while (i < num_levels - 1 && pressure_profile[i] > 50000) i++;`
loop. -/
def tropopauseSkipGo (n : Nat) (p : Nat → ℚ) : Nat → Nat → Nat
  | 0, i => i
  | fuel + 1, i => if i < n - 1 ∧ p i > 50000 then tropopauseSkipGo n p fuel (i + 1) else i

/-- The look-ahead loop accumulating `lapse_sum` and `count` over the levels
within 2 km above `base`, skipping layers of height below `EPSILON`. -/
def lapseAvgGo (n : Nat) (alt T : Nat → ℚ) (base : ℚ) : Nat → Nat → ℚ → Nat → ℚ × Nat
  | 0, _, lapse_sum, count => (lapse_sum, count)
  | fuel + 1, k, lapse_sum, count =>
    if k < n ∧ alt k ≤ base + 2000 then
      if EPSILON ≤ alt k - alt (k - 1) then
        lapseAvgGo n alt T base fuel (k + 1)
          (lapse_sum + (T (k - 1) - T k) / (alt k - alt (k - 1))) (count + 1)
      else lapseAvgGo n alt T base fuel (k + 1) lapse_sum count
    else (lapse_sum, count)

/-- The main scan `while (i < num_levels - 1 && pressure_profile[i] > 5000)`.
`lapse_below` is NaN-aware (`Qn`): it can be NaN for the entry layer and is
carried over layers thinner than `EPSILON`. -/
def tropopauseScanGo (n : Nat) (alt p T : Nat → ℚ) : Nat → Nat → Qn → Int
  | 0, _, _ => -1
  | fuel + 1, i, lapse_below =>
    if i < n - 1 ∧ p i > 5000 then
      if alt (i + 1) - alt i < 0 then -1
      else
        let lapse_above : Qn :=
          if alt (i + 1) - alt i < EPSILON then lapse_below
          else some ((T i - T (i + 1)) / (alt (i + 1) - alt i))
        if qgt lapse_below (1 / 500) && qle lapse_above (1 / 500) then
          let sc := lapseAvgGo n alt T (alt i) n (i + 2) 0 0
          if sc.2 = 0 ∨ sc.1 / (sc.2 : ℚ) ≤ 1 / 500 then (i : Int)
          else tropopauseScanGo n alt p T fuel (i + 1) lapse_above
        else tropopauseScanGo n alt p T fuel (i + 1) lapse_above
    else -1

/-- `harp_tropopause_index_from_altitude_and_temperature`: the index of the
tropopause in the altitude grid, or `-1` if not found. -/
def harp_tropopause_index_from_altitude_and_temperature
    (n : Nat) (alt p T : Nat → ℚ) : Int :=
  let i := tropopauseSkipGo n p n 1
  if n - 1 ≤ i then -1
  else
    if alt i - alt (i - 1) < 0 then -1
    else
      let lapse_below : Qn :=
        if alt i - alt (i - 1) < EPSILON then none
        else some ((T (i - 1) - T i) / (alt i - alt (i - 1)))
      tropopauseScanGo n alt p T n i lapse_below

/-- Lapse rate of the layer between levels `k-1` and `k`, in K/m. -/
def lapseRate (alt T : Nat → ℚ) (k : Nat) : ℚ := (T (k - 1) - T k) / (alt k - alt (k - 1))

/-- The layers whose lapse rates enter the look-ahead average for candidate
level `i`: levels `k ≥ i+2` within 2 km above `altitude[i]`. -/
def lapseLayers (n : Nat) (alt : Nat → ℚ) (i : Nat) : Finset ℕ :=
  (Finset.range n).filter (fun k => i + 2 ≤ k ∧ alt k ≤ alt i + 2000)

/-- The windowed-average constraint of the WMO definition: no layers to check,
or their mean lapse rate at most 0.002 K/m. -/
def avgLapseOk (n : Nat) (alt T : Nat → ℚ) (i : Nat) : Prop :=
  lapseLayers n alt i = ∅ ∨
    (∑ k ∈ lapseLayers n alt i, lapseRate alt T k) / (lapseLayers n alt i).card ≤ 1 / 500

/-- The qualifying conditions for a tropopause index, written from the claim
(with the pressure window as the code has it: `p i ≤ 50000` and `p i > 5000`). -/
def tropopauseCond (n : Nat) (alt p T : Nat → ℚ) (i : Nat) : Prop :=
  1 ≤ i ∧ i + 1 < n ∧ p i ≤ 50000 ∧ 5000 < p i ∧
    1 / 500 < lapseRate alt T i ∧ lapseRate alt T (i + 1) ≤ 1 / 500 ∧
    avgLapseOk n alt T i

instance (n : Nat) (alt T : Nat → ℚ) (i : Nat) : Decidable (avgLapseOk n alt T i) := by
  unfold avgLapseOk; infer_instance

instance (n : Nat) (alt p T : Nat → ℚ) (i : Nat) : Decidable (tropopauseCond n alt p T i) := by
  unfold tropopauseCond; infer_instance

lemma EPSILON_pos : (0 : ℚ) < EPSILON := by norm_num [EPSILON]

lemma tropopauseSkipGo_ge (n : Nat) (p : Nat → ℚ) :
    ∀ fuel i, i ≤ tropopauseSkipGo n p fuel i := by
  intro fuel
  induction fuel with
  | zero => intro i; simp [tropopauseSkipGo]
  | succ fuel ih =>
    intro i
    simp only [tropopauseSkipGo]
    split
    · exact le_trans (Nat.le_succ i) (ih (i + 1))
    · exact le_refl i

lemma tropopauseSkipGo_below (n : Nat) (p : Nat → ℚ) :
    ∀ fuel i j, i ≤ j → j < tropopauseSkipGo n p fuel i → 50000 < p j := by
  intro fuel
  induction fuel with
  | zero => intro i j hij hj; simp [tropopauseSkipGo] at hj; omega
  | succ fuel ih =>
    intro i j hij hj
    simp only [tropopauseSkipGo] at hj
    split at hj
    next h =>
      rcases Nat.eq_or_lt_of_le hij with rfl | hlt
      · exact h.2
      · exact ih (i + 1) j hlt hj
    next _ => omega

lemma tropopauseSkipGo_stop (n : Nat) (p : Nat → ℚ) :
    ∀ fuel i, n - 1 - i ≤ fuel → tropopauseSkipGo n p fuel i < n - 1 →
      p (tropopauseSkipGo n p fuel i) ≤ 50000 := by
  intro fuel
  induction fuel with
  | zero => intro i hfuel hlt; simp [tropopauseSkipGo] at hlt ⊢; omega
  | succ fuel ih =>
    intro i hfuel hlt
    simp only [tropopauseSkipGo] at hlt ⊢
    split at hlt
    next h =>
      rw [if_pos h]
      exact ih (i + 1) (by omega) hlt
    next h =>
      rw [if_neg h]
      push_neg at h
      exact h hlt

lemma tropopauseSkipGo_eq (n : Nat) (p : Nat → ℚ) :
    ∀ fuel i i0, n - 1 - i ≤ fuel → i ≤ i0 → i0 < n - 1 →
      (∀ j, i ≤ j → j < i0 → 50000 < p j) → p i0 ≤ 50000 →
      tropopauseSkipGo n p fuel i = i0 := by
  intro fuel
  induction fuel with
  | zero => intro i i0 hfuel hi hi0 _ _; omega
  | succ fuel ih =>
    intro i i0 hfuel hi hi0 hbelow hstop
    simp only [tropopauseSkipGo]
    rcases Nat.eq_or_lt_of_le hi with rfl | hlt
    · rw [if_neg]
      rintro ⟨-, hgt⟩
      exact absurd hstop (not_le.mpr hgt)
    · rw [if_pos ⟨by omega, hbelow i le_rfl hlt⟩]
      exact ih (i + 1) i0 (by omega) hlt hi0 (fun j hj => hbelow j (by omega)) hstop

lemma alt_le_of_gap (n : Nat) (alt : Nat → ℚ)
    (hgap : ∀ j, j + 1 < n → EPSILON ≤ alt (j + 1) - alt j) :
    ∀ b a, a ≤ b → b < n → alt a ≤ alt b := by
  intro b
  induction b with
  | zero => intro a ha _; interval_cases a; exact le_rfl
  | succ b ih =>
    intro a ha hbn
    rcases Nat.eq_or_lt_of_le ha with rfl | hlt
    · exact le_rfl
    · have h1 : alt a ≤ alt b := ih a (by omega) (by omega)
      have h2 : EPSILON ≤ alt (b + 1) - alt b := hgap b hbn
      have := EPSILON_pos
      linarith

lemma lapseAvgGo_spec (n : Nat) (alt T : Nat → ℚ) (base : ℚ)
    (hgap : ∀ j, j + 1 < n → EPSILON ≤ alt (j + 1) - alt j) :
    ∀ fuel k s c, 1 ≤ k → n - k ≤ fuel →
      lapseAvgGo n alt T base fuel k s c =
        (s + ∑ j ∈ (Finset.range n).filter (fun j => k ≤ j ∧ alt j ≤ base + 2000),
            lapseRate alt T j,
         c + ((Finset.range n).filter (fun j => k ≤ j ∧ alt j ≤ base + 2000)).card) := by
  intro fuel
  induction fuel with
  | zero =>
    intro k s c hk hfuel
    have hempty : (Finset.range n).filter (fun j => k ≤ j ∧ alt j ≤ base + 2000) = ∅ :=
      Finset.eq_empty_of_forall_not_mem (fun j hj => by
        simp only [Finset.mem_filter, Finset.mem_range] at hj
        omega)
    simp [lapseAvgGo, hempty]
  | succ fuel ih =>
    intro k s c hk hfuel
    simp only [lapseAvgGo]
    split
    next h =>
      have hstep : EPSILON ≤ alt k - alt (k - 1) := by
        have := hgap (k - 1) (by omega)
        have hk1 : k - 1 + 1 = k := by omega
        rwa [hk1] at this
      rw [if_pos hstep, ih (k + 1) _ _ (by omega) (by omega)]
      have hins : (Finset.range n).filter (fun j => k ≤ j ∧ alt j ≤ base + 2000)
          = insert k ((Finset.range n).filter (fun j => k + 1 ≤ j ∧ alt j ≤ base + 2000)) := by
        ext j
        simp only [Finset.mem_filter, Finset.mem_range, Finset.mem_insert]
        constructor
        · rintro ⟨hjn, hkj, hja⟩
          rcases Nat.eq_or_lt_of_le hkj with rfl | h2
          · exact Or.inl rfl
          · exact Or.inr ⟨hjn, h2, hja⟩
        · rintro (rfl | ⟨hjn, hkj, hja⟩)
          · exact ⟨h.1, le_rfl, h.2⟩
          · exact ⟨hjn, by omega, hja⟩
      have hnotmem :
          k ∉ (Finset.range n).filter (fun j => k + 1 ≤ j ∧ alt j ≤ base + 2000) := by
        simp only [Finset.mem_filter, Finset.mem_range]
        rintro ⟨-, h2, -⟩
        omega
      rw [hins, Finset.sum_insert hnotmem, Finset.card_insert_of_not_mem hnotmem]
      refine Prod.ext ?_ ?_
      · simp only [lapseRate]
        ring
      · simp only
        omega
    next h =>
      have hempty : (Finset.range n).filter (fun j => k ≤ j ∧ alt j ≤ base + 2000) = ∅ := by
        push_neg at h
        refine Finset.eq_empty_of_forall_not_mem (fun j hj => ?_)
        simp only [Finset.mem_filter, Finset.mem_range] at hj
        rcases Nat.lt_or_ge k n with hkn | hkn
        · have halt : alt k ≤ alt j := alt_le_of_gap n alt hgap j k hj.2.1 hj.1
          have := h hkn
          linarith [hj.2.2]
        · omega
      simp [hempty]

/-- The look-ahead loop, as invoked by the scan, computes the sum and count of
the lapse rates of the layers in `lapseLayers`. -/
lemma lapseAvgGo_lapseLayers (n : Nat) (alt T : Nat → ℚ) (i : Nat)
    (hgap : ∀ j, j + 1 < n → EPSILON ≤ alt (j + 1) - alt j) :
    lapseAvgGo n alt T (alt i) n (i + 2) 0 0 =
      (∑ k ∈ lapseLayers n alt i, lapseRate alt T k, (lapseLayers n alt i).card) := by
  rw [lapseAvgGo_spec n alt T (alt i) hgap n (i + 2) 0 0 (by omega) (by omega)]
  simp [lapseLayers]

lemma tropopauseScanGo_spec (n : Nat) (alt p T : Nat → ℚ)
    (hgap : ∀ j, j + 1 < n → EPSILON ≤ alt (j + 1) - alt j)
    (hp : ∀ j, j + 1 < n → p (j + 1) < p j) :
    ∀ fuel i lb, 1 ≤ i → p i ≤ 50000 → lb = some (lapseRate alt T i) →
      (∀ j, j < i → ¬ tropopauseCond n alt p T j) →
      ∀ m : Nat, tropopauseScanGo n alt p T fuel i lb = (m : Int) →
        tropopauseCond n alt p T m ∧ ∀ j, j < m → ¬ tropopauseCond n alt p T j := by
  intro fuel
  induction fuel with
  | zero =>
    intro i lb _ _ _ _ m hm
    simp only [tropopauseScanGo] at hm
    omega
  | succ fuel ih =>
    intro i lb hi hple hlb hmin m hm
    simp only [tropopauseScanGo] at hm
    split at hm
    next hg =>
      obtain ⟨hilt, hp5⟩ := hg
      have hin : i + 1 < n := by omega
      have hstep : EPSILON ≤ alt (i + 1) - alt i := hgap i hin
      have heps := EPSILON_pos
      rw [if_neg (by linarith : ¬ alt (i + 1) - alt i < 0)] at hm
      rw [if_neg (not_lt.mpr hstep), hlb] at hm
      have hple1 : p (i + 1) ≤ 50000 := le_trans (le_of_lt (hp i hin)) hple
      have hlb1 : (some ((T i - T (i + 1)) / (alt (i + 1) - alt i)) : Qn)
          = some (lapseRate alt T (i + 1)) := by simp [lapseRate]
      split at hm
      next hcond =>
        simp only [qgt, qle, Bool.and_eq_true, decide_eq_true_eq] at hcond
        rw [lapseAvgGo_lapseLayers n alt T i hgap] at hm
        split at hm
        next havg =>
          have hmi : m = i := by omega
          subst hmi
          refine ⟨⟨hi, hin, hple, hp5, hcond.1, by simpa [lapseRate] using hcond.2, ?_⟩, hmin⟩
          rcases havg with h0 | hle
          · exact Or.inl (Finset.card_eq_zero.mp (by simpa using h0))
          · exact Or.inr (by simpa using hle)
        next havg =>
          refine ih (i + 1) _ (by omega) hple1 hlb1 ?_ m hm
          intro j hj
          rcases Nat.lt_succ_iff_lt_or_eq.mp hj with hj' | rfl
          · exact hmin j hj'
          · rintro ⟨-, -, -, -, -, -, havgOk⟩
            push_neg at havg
            simp only at havg
            rcases havgOk with hO | hO
            · exact havg.1 (by simp [hO])
            · exact absurd hO (not_le.mpr havg.2)
      next hcond =>
        refine ih (i + 1) _ (by omega) hple1 hlb1 ?_ m hm
        intro j hj
        rcases Nat.lt_succ_iff_lt_or_eq.mp hj with hj' | rfl
        · exact hmin j hj'
        · rintro ⟨-, -, -, -, hbelow, habove, -⟩
          simp only [qgt, qle, Bool.and_eq_true, decide_eq_true_eq] at hcond
          exact hcond ⟨hbelow, by simpa [lapseRate] using habove⟩
    next hg => omega

/-- Example profile for the tropopause claims: strictly increasing altitude,
strictly decreasing pressure, lapse-rate break at level 1, whose pressure is
exactly 50000 Pa. -/
def tropoExAlt : Nat → ℚ := fun k => ([0, 1000, 2000, 3000] : List ℚ).getD k 0

/-- Pressure profile of the example; `tropoExP 1 = 50000` exactly. -/
def tropoExP : Nat → ℚ := fun k => ([100000, 50000, 20000, 6000] : List ℚ).getD k 0

/-- Temperature profile of the example. -/
def tropoExT : Nat → ℚ := fun k => ([290, 280, 280, 280] : List ℚ).getD k 0

/-- C3, counterexample: on this strictly-increasing-altitude, strictly
decreasing-pressure profile the locator returns index 1, whose pressure is
exactly 50000 Pa — not strictly below 50000 Pa as the claim states (the initial
skip loop stops at the first level with pressure `<= 50000`, not `< 50000`). -/
theorem C3_counterexample_pressure_exactly_50000 :
    harp_tropopause_index_from_altitude_and_temperature 4 tropoExAlt tropoExP tropoExT = 1 ∧
    (∀ j, j + 1 < 4 → tropoExAlt j < tropoExAlt (j + 1)) ∧
    (∀ j, j + 1 < 4 → tropoExP (j + 1) < tropoExP j) ∧
    ¬ tropoExP 1 < 50000 := by
  refine ⟨?_, ?_, ?_, by norm_num [tropoExP]⟩
  · norm_num [harp_tropopause_index_from_altitude_and_temperature, tropopauseSkipGo,
      tropopauseScanGo, lapseAvgGo, qgt, qle, EPSILON, tropoExAlt, tropoExP, tropoExT]
  · intro j hj
    have hj' : j < 3 := by omega
    interval_cases j <;> norm_num [tropoExAlt]
  · intro j hj
    have hj' : j < 3 := by omega
    interval_cases j <;> norm_num [tropoExP]

/-- C3 (amended): for every profile whose consecutive altitude gaps are at
least the small-layer threshold `EPSILON` (in particular strictly increasing)
and whose pressure is strictly decreasing, if the locator returns an index `m`
(not `-1`), then `m` satisfies the qualifying conditions — pressure at `m` *at
most* 50000 Pa (the code stops at the first level with pressure `<= 50000`,
so exactly 50000 qualifies) and strictly above 5000 Pa, the lapse rate of the
layer below exceeds 0.002 K/m, the lapse rate of the layer above is at most
0.002 K/m, and the average lapse rate over the subsequent levels within 2 km
is at most 0.002 K/m (vacuously if there are none) — and `m` is the lowest
index satisfying these conditions. -/
theorem C3_tropopause_index_is_least_qualifying
    (n : Nat) (alt p T : Nat → ℚ)
    (hgap : ∀ j, j + 1 < n → EPSILON ≤ alt (j + 1) - alt j)
    (hp : ∀ j, j + 1 < n → p (j + 1) < p j)
    (m : Nat)
    (hm : harp_tropopause_index_from_altitude_and_temperature n alt p T = (m : Int)) :
    tropopauseCond n alt p T m ∧ ∀ j, j < m → ¬ tropopauseCond n alt p T j := by
  unfold harp_tropopause_index_from_altitude_and_temperature at hm
  simp only at hm
  split at hm
  next hge => omega
  next hge =>
    push_neg at hge
    have hi1 : 1 ≤ tropopauseSkipGo n p n 1 := tropopauseSkipGo_ge n p n 1
    have heps := EPSILON_pos
    have hstep : EPSILON ≤ alt (tropopauseSkipGo n p n 1) - alt (tropopauseSkipGo n p n 1 - 1) := by
      have := hgap (tropopauseSkipGo n p n 1 - 1) (by omega)
      have h1 : tropopauseSkipGo n p n 1 - 1 + 1 = tropopauseSkipGo n p n 1 := by omega
      rwa [h1] at this
    rw [if_neg (by linarith : ¬ alt (tropopauseSkipGo n p n 1) -
        alt (tropopauseSkipGo n p n 1 - 1) < 0)] at hm
    rw [if_neg (not_lt.mpr hstep)] at hm
    refine tropopauseScanGo_spec n alt p T hgap hp n (tropopauseSkipGo n p n 1) _ hi1
      (tropopauseSkipGo_stop n p n 1 (by omega) hge) rfl ?_ m hm
    intro j hj hc
    rcases Nat.eq_zero_or_pos j with rfl | hj1
    · exact absurd hc.1 (by omega)
    · exact absurd hc.2.2.1 (not_le.mpr (tropopauseSkipGo_below n p n 1 j hj1 hj))

/-- C3, witness: the amended theorem applied to the example profile, where the
locator returns index 1. -/
theorem C3_tropopause_index_is_least_qualifying_witness :
    (∀ j, j + 1 < 4 → EPSILON ≤ tropoExAlt (j + 1) - tropoExAlt j) ∧
    (∀ j, j + 1 < 4 → tropoExP (j + 1) < tropoExP j) ∧
    harp_tropopause_index_from_altitude_and_temperature 4 tropoExAlt tropoExP tropoExT =
      ((1 : Nat) : Int) ∧
    (tropopauseCond 4 tropoExAlt tropoExP tropoExT 1 ∧
      ∀ j, j < 1 → ¬ tropopauseCond 4 tropoExAlt tropoExP tropoExT j) := by
  have hgap : ∀ j, j + 1 < 4 → EPSILON ≤ tropoExAlt (j + 1) - tropoExAlt j := by
    intro j hj
    have hj' : j < 3 := by omega
    interval_cases j <;> norm_num [tropoExAlt, EPSILON]
  have hp : ∀ j, j + 1 < 4 → tropoExP (j + 1) < tropoExP j := by
    intro j hj
    have hj' : j < 3 := by omega
    interval_cases j <;> norm_num [tropoExP]
  have hm : harp_tropopause_index_from_altitude_and_temperature 4 tropoExAlt tropoExP tropoExT =
      ((1 : Nat) : Int) := by
    norm_num [harp_tropopause_index_from_altitude_and_temperature, tropopauseSkipGo,
      tropopauseScanGo, lapseAvgGo, qgt, qle, EPSILON, tropoExAlt, tropoExP, tropoExT]
  exact ⟨hgap, hp, hm,
    C3_tropopause_index_is_least_qualifying 4 tropoExAlt tropoExP tropoExT hgap hp 1 hm⟩

/-- Profile with an altitude decrease at the very first layer (1000 m down to
500 m), which lies below the 50000 Pa entry point of the tropopause scan. -/
def tropoDecAlt : Nat → ℚ := fun k => ([1000, 500, 2000, 3000, 4000] : List ℚ).getD k 0

/-- Pressure profile accompanying `tropoDecAlt`; the scan enters at index 2. -/
def tropoDecP : Nat → ℚ := fun k => ([100000, 60000, 50000, 20000, 6000] : List ℚ).getD k 0

/-- Temperature profile accompanying `tropoDecAlt`. -/
def tropoDecT : Nat → ℚ := fun k => ([300, 295, 290, 280, 280] : List ℚ).getD k 0

/-- C4, counterexample: this profile has `altitude[1] < altitude[0]`, i.e. it is
not monotonically increasing, yet the locator returns 3 (not `-1`): the
decrease lies below the 50000 Pa level, where the skip loop never inspects
altitudes. -/
theorem C4_counterexample_decrease_below_window_undetected :
    harp_tropopause_index_from_altitude_and_temperature 5 tropoDecAlt tropoDecP tropoDecT = 3 ∧
    tropoDecAlt 1 < tropoDecAlt 0 ∧
    (3 : Int) ≠ -1 := by
  refine ⟨?_, by norm_num [tropoDecAlt], by norm_num⟩
  norm_num [harp_tropopause_index_from_altitude_and_temperature, tropopauseSkipGo,
    tropopauseScanGo, lapseAvgGo, qgt, qle, EPSILON, tropoDecAlt, tropoDecP, tropoDecT]

/-- C4 (amended): an altitude decrease makes the locator return `-1` only when
the scan actually examines the decreasing layer.  In particular, if `i0`, the
first index `≥ 1` whose pressure is at most 50000 Pa, satisfies `i0 < n - 1`
and `altitude[i0] < altitude[i0 - 1]`, the locator returns `-1`; decreases at
layers below the 50000 Pa entry point (or beyond the returned index) can go
undetected. -/
theorem C4_decrease_at_scan_entry_returns_minus_one
    (n : Nat) (alt p T : Nat → ℚ) (i0 : Nat)
    (h1 : 1 ≤ i0) (h2 : i0 < n - 1)
    (hfirst : ∀ j, 1 ≤ j → j < i0 → 50000 < p j)
    (hstop : p i0 ≤ 50000)
    (hdec : alt i0 < alt (i0 - 1)) :
    harp_tropopause_index_from_altitude_and_temperature n alt p T = -1 := by
  have hskip : tropopauseSkipGo n p n 1 = i0 :=
    tropopauseSkipGo_eq n p n 1 i0 (by omega) h1 h2 hfirst hstop
  unfold harp_tropopause_index_from_altitude_and_temperature
  simp only [hskip]
  rw [if_neg (by omega : ¬ n - 1 ≤ i0), if_pos (sub_neg.mpr hdec)]

/-- C4, witness: the amended theorem applied at a concrete profile whose
altitude decreases at the scan's entry layer. -/
theorem C4_decrease_at_scan_entry_returns_minus_one_witness :
    ((1 : Nat) ≤ 1 ∧ 1 < 3 - 1 ∧
      (∀ j, 1 ≤ j → j < 1 → (50000 : ℚ) <
        (fun k => ([100000, 40000, 10000] : List ℚ).getD k 0) j) ∧
      (fun k => ([100000, 40000, 10000] : List ℚ).getD k 0) 1 ≤ 50000 ∧
      (fun k => ([1000, 500, 2000] : List ℚ).getD k 0) 1 <
        (fun k => ([1000, 500, 2000] : List ℚ).getD k 0) (1 - 1)) ∧
    harp_tropopause_index_from_altitude_and_temperature 3
      (fun k => ([1000, 500, 2000] : List ℚ).getD k 0)
      (fun k => ([100000, 40000, 10000] : List ℚ).getD k 0)
      (fun k => ([0, 0, 0] : List ℚ).getD k 0) = -1 := by
  have h3 : ∀ j, 1 ≤ j → j < 1 →
      (50000 : ℚ) < (fun k => ([100000, 40000, 10000] : List ℚ).getD k 0) j := by
    intro j hj1 hj2
    omega
  refine ⟨⟨le_rfl, by norm_num, h3, by norm_num, by norm_num⟩, ?_⟩
  exact C4_decrease_at_scan_entry_returns_minus_one 3 _ _ _ 1 le_rfl (by norm_num) h3
    (by norm_num) (by norm_num)

/-! ### Hydrostatic integrators (`harp-vertical-profiles.c:286-325, 608-647`)

`harp_profile_gph_from_pressure` and `harp_profile_pressure_from_gph` walk the
levels from the surface outward.  The C loop detects the storage direction by
comparing the first and last input values and runs the surface-first recursion
either directly or with inverted indices; inverted-index processing over
arrays is embedded as processing the reversed lists and reversing the result.
The physical constants `CONST_MOLAR_GAS` and
`CONST_GRAV_ACCEL_45LAT_WGS84_SPHERE` live in `harp-constants.h` (outside the
sources), so they are kept as parameters `Rgas`, `g0`; the theorems hold for
all positive values. -/

/-- Levels after the first of `harp_profile_gph_from_pressure`, surface-first
order: trapezoidal mean of temperature and molar mass, reference gravity. -/
noncomputable def gphFromPressureAscAux (Rgas g0 : ℝ) :
    List ℝ → List ℝ → List ℝ → ℝ → ℝ → ℝ → ℝ → List ℝ
  | p :: ps, T :: Ts, M :: Ms, prev_p, prev_T, prev_M, prev_z =>
      (prev_z + 1000 * ((prev_T + T) / (prev_M + M)) * (Rgas / g0) * Real.log (prev_p / p)) ::
        gphFromPressureAscAux Rgas g0 ps Ts Ms p T M
          (prev_z + 1000 * ((prev_T + T) / (prev_M + M)) * (Rgas / g0) * Real.log (prev_p / p))
  | _, _, _, _, _, _, _ => []

/-- `harp_profile_gph_from_pressure` in surface-first order: the first level
integrates from the surface with the level's own temperature and molar mass. -/
noncomputable def gphFromPressureAsc (Rgas g0 : ℝ) (p T M : List ℝ)
    (surface_pressure surface_height : ℝ) : List ℝ :=
  match p, T, M with
  | p0 :: ps, T0 :: Ts, M0 :: Ms =>
      (surface_height + 1000 * (T0 / M0) * (Rgas / g0) * Real.log (surface_pressure / p0)) ::
        gphFromPressureAscAux Rgas g0 ps Ts Ms p0 T0 M0
          (surface_height + 1000 * (T0 / M0) * (Rgas / g0) * Real.log (surface_pressure / p0))
  | _, _, _ => []

/-- `harp_profile_gph_from_pressure` with the C loop's direction detection
(`pressure_profile[0] < pressure_profile[num_levels-1]` means the storage is
top-of-atmosphere first, so the loop index is inverted). -/
noncomputable def harp_profile_gph_from_pressure (Rgas g0 : ℝ) (p T M : List ℝ)
    (surface_pressure surface_height : ℝ) : List ℝ :=
  if p.headD 0 < p.getLastD 0 then
    (gphFromPressureAsc Rgas g0 p.reverse T.reverse M.reverse
      surface_pressure surface_height).reverse
  else
    gphFromPressureAsc Rgas g0 p T M surface_pressure surface_height

/-- Levels after the first of `harp_profile_pressure_from_gph`, surface-first
order. -/
noncomputable def pressureFromGphAscAux (Rgas g0 : ℝ) :
    List ℝ → List ℝ → List ℝ → ℝ → ℝ → ℝ → ℝ → List ℝ
  | z :: zs, T :: Ts, M :: Ms, prev_p, prev_T, prev_M, prev_z =>
      (prev_p * Real.exp (-(1 / 1000) * ((prev_M + M) / (prev_T + T)) * (g0 / Rgas) *
          (z - prev_z))) ::
        pressureFromGphAscAux Rgas g0 zs Ts Ms
          (prev_p * Real.exp (-(1 / 1000) * ((prev_M + M) / (prev_T + T)) * (g0 / Rgas) *
            (z - prev_z)))
          T M z
  | _, _, _, _, _, _, _ => []

/-- `harp_profile_pressure_from_gph` in surface-first order. -/
noncomputable def pressureFromGphAsc (Rgas g0 : ℝ) (gph T M : List ℝ)
    (surface_pressure surface_height : ℝ) : List ℝ :=
  match gph, T, M with
  | z0 :: zs, T0 :: Ts, M0 :: Ms =>
      (surface_pressure * Real.exp (-(1 / 1000) * (M0 / T0) * (g0 / Rgas) *
          (z0 - surface_height))) ::
        pressureFromGphAscAux Rgas g0 zs Ts Ms
          (surface_pressure * Real.exp (-(1 / 1000) * (M0 / T0) * (g0 / Rgas) *
            (z0 - surface_height)))
          T0 M0 z0
  | _, _, _ => []

/-- `harp_profile_pressure_from_gph` with the C direction detection
(`gph_profile[0] > gph_profile[num_levels-1]` means top-of-atmosphere first). -/
noncomputable def harp_profile_pressure_from_gph (Rgas g0 : ℝ) (gph T M : List ℝ)
    (surface_pressure surface_height : ℝ) : List ℝ :=
  if gph.getLastD 0 < gph.headD 0 then
    (pressureFromGphAsc Rgas g0 gph.reverse T.reverse M.reverse
      surface_pressure surface_height).reverse
  else
    pressureFromGphAsc Rgas g0 gph T M surface_pressure surface_height

lemma pressureFromGphAscAux_inverse (Rgas g0 : ℝ) (hR : Rgas ≠ 0) (hg : g0 ≠ 0) :
    ∀ (ps Ts Ms : List ℝ) (pp pT pM pz : ℝ),
      ps.length = Ts.length → ps.length = Ms.length →
      0 < pp → 0 < pT → 0 < pM →
      (∀ x ∈ ps, 0 < x) → (∀ x ∈ Ts, 0 < x) → (∀ x ∈ Ms, 0 < x) →
      pressureFromGphAscAux Rgas g0 (gphFromPressureAscAux Rgas g0 ps Ts Ms pp pT pM pz)
        Ts Ms pp pT pM pz = ps := by
  intro ps
  induction ps with
  | nil =>
    intro Ts Ms pp pT pM pz _ _ _ _ _ _ _ _
    simp [gphFromPressureAscAux, pressureFromGphAscAux]
  | cons p ps ih =>
    intro Ts Ms pp pT pM pz hlT hlM hpp hpT hpM hps hTs hMs
    cases Ts with
    | nil => simp at hlT
    | cons T Ts =>
      cases Ms with
      | nil => simp at hlM
      | cons M Ms =>
        have hp : 0 < p := hps p (by simp)
        have hT : 0 < T := hTs T (by simp)
        have hM : 0 < M := hMs M (by simp)
        have hTT : pT + T ≠ 0 := by positivity
        have hMM : pM + M ≠ 0 := by positivity
        simp only [gphFromPressureAscAux, pressureFromGphAscAux]
        have hhead : pp * Real.exp (-(1 / 1000) * ((pM + M) / (pT + T)) * (g0 / Rgas) *
            (pz + 1000 * ((pT + T) / (pM + M)) * (Rgas / g0) * Real.log (pp / p) - pz)) = p := by
          have harg : -(1 / 1000) * ((pM + M) / (pT + T)) * (g0 / Rgas) *
              (pz + 1000 * ((pT + T) / (pM + M)) * (Rgas / g0) * Real.log (pp / p) - pz) =
              -Real.log (pp / p) := by
            field_simp
            ring
          rw [harg, Real.exp_neg, Real.exp_log (div_pos hpp hp)]
          field_simp
        rw [hhead]
        rw [ih Ts Ms p T M _ (by simpa using hlT) (by simpa using hlM) hp hT hM
          (fun x hx => hps x (by simp [hx])) (fun x hx => hTs x (by simp [hx]))
          (fun x hx => hMs x (by simp [hx]))]

lemma pressureFromGphAsc_inverse (Rgas g0 : ℝ) (hR : Rgas ≠ 0) (hg : g0 ≠ 0)
    (p T M : List ℝ) (sp h0 : ℝ)
    (hlT : p.length = T.length) (hlM : p.length = M.length)
    (hsp : 0 < sp) (hps : ∀ x ∈ p, 0 < x) (hTs : ∀ x ∈ T, 0 < x) (hMs : ∀ x ∈ M, 0 < x) :
    pressureFromGphAsc Rgas g0 (gphFromPressureAsc Rgas g0 p T M sp h0) T M sp h0 = p := by
  cases p with
  | nil => simp [gphFromPressureAsc, pressureFromGphAsc]
  | cons p0 ps =>
    cases T with
    | nil => simp at hlT
    | cons T0 Ts =>
      cases M with
      | nil => simp at hlM
      | cons M0 Ms =>
        have hp0 : 0 < p0 := hps p0 (by simp)
        have hT0 : 0 < T0 := hTs T0 (by simp)
        have hM0 : 0 < M0 := hMs M0 (by simp)
        simp only [gphFromPressureAsc, pressureFromGphAsc]
        have hhead : sp * Real.exp (-(1 / 1000) * (M0 / T0) * (g0 / Rgas) *
            (h0 + 1000 * (T0 / M0) * (Rgas / g0) * Real.log (sp / p0) - h0)) = p0 := by
          have harg : -(1 / 1000) * (M0 / T0) * (g0 / Rgas) *
              (h0 + 1000 * (T0 / M0) * (Rgas / g0) * Real.log (sp / p0) - h0) =
              -Real.log (sp / p0) := by
            have hT0' : T0 ≠ 0 := ne_of_gt hT0
            have hM0' : M0 ≠ 0 := ne_of_gt hM0
            field_simp
            ring
          rw [harg, Real.exp_neg, Real.exp_log (div_pos hsp hp0)]
          field_simp
        rw [hhead]
        rw [pressureFromGphAscAux_inverse Rgas g0 hR hg ps Ts Ms p0 T0 M0 _
          (by simpa using hlT) (by simpa using hlM) hp0 hT0 hM0
          (fun x hx => hps x (by simp [hx])) (fun x hx => hTs x (by simp [hx]))
          (fun x hx => hMs x (by simp [hx]))]

lemma gphFromPressureAscAux_length (Rgas g0 : ℝ) :
    ∀ (ps Ts Ms : List ℝ) (pp pT pM pz : ℝ), ps.length = Ts.length → ps.length = Ms.length →
      (gphFromPressureAscAux Rgas g0 ps Ts Ms pp pT pM pz).length = ps.length := by
  intro ps
  induction ps with
  | nil => intro Ts Ms _ _ _ _ _ _; simp [gphFromPressureAscAux]
  | cons p ps ih =>
    intro Ts Ms pp pT pM pz hlT hlM
    cases Ts with
    | nil => simp at hlT
    | cons T Ts =>
      cases Ms with
      | nil => simp at hlM
      | cons M Ms =>
        simp only [gphFromPressureAscAux, List.length_cons]
        rw [ih Ts Ms _ _ _ _ (by simpa using hlT) (by simpa using hlM)]

lemma gphFromPressureAsc_length (Rgas g0 : ℝ) (p T M : List ℝ) (sp h0 : ℝ)
    (hlT : p.length = T.length) (hlM : p.length = M.length) :
    (gphFromPressureAsc Rgas g0 p T M sp h0).length = p.length := by
  cases p with
  | nil => simp [gphFromPressureAsc]
  | cons p0 ps =>
    cases T with
    | nil => simp at hlT
    | cons T0 Ts =>
      cases M with
      | nil => simp at hlM
      | cons M0 Ms =>
        simp only [gphFromPressureAsc, List.length_cons]
        rw [gphFromPressureAscAux_length Rgas g0 ps Ts Ms _ _ _ _
          (by simpa using hlT) (by simpa using hlM)]

lemma gphFromPressureAscAux_chain (Rgas g0 : ℝ) (hR : 0 < Rgas) (hg : 0 < g0) :
    ∀ (ps Ts Ms : List ℝ) (pp pT pM pz : ℝ),
      0 < pp → 0 < pT → 0 < pM →
      (∀ x ∈ ps, 0 < x) → (∀ x ∈ Ts, 0 < x) → (∀ x ∈ Ms, 0 < x) →
      List.Chain' (· > ·) (pp :: ps) →
      List.Chain' (· < ·) (pz :: gphFromPressureAscAux Rgas g0 ps Ts Ms pp pT pM pz) := by
  intro ps
  induction ps with
  | nil => intro Ts Ms pp pT pM pz _ _ _ _ _ _ _; simp [gphFromPressureAscAux]
  | cons p ps ih =>
    intro Ts Ms pp pT pM pz hpp hpT hpM hps hTs hMs hchain
    cases Ts with
    | nil => simp [gphFromPressureAscAux]
    | cons T Ts =>
      cases Ms with
      | nil => simp [gphFromPressureAscAux]
      | cons M Ms =>
        have hp : 0 < p := hps p (by simp)
        have hT : 0 < T := hTs T (by simp)
        have hM : 0 < M := hMs M (by simp)
        obtain ⟨hgt, hchain'⟩ := List.chain'_cons.mp hchain
        simp only [gphFromPressureAscAux]
        refine List.chain'_cons.mpr ⟨?_, ?_⟩
        · have hC : 0 < 1000 * ((pT + T) / (pM + M)) * (Rgas / g0) := by positivity
          have hL : 0 < Real.log (pp / p) := Real.log_pos ((one_lt_div hp).mpr hgt)
          nlinarith [mul_pos hC hL]
        · exact ih Ts Ms p T M _ hp hT hM (fun x hx => hps x (by simp [hx]))
            (fun x hx => hTs x (by simp [hx])) (fun x hx => hMs x (by simp [hx])) hchain'

lemma gphFromPressureAsc_chain (Rgas g0 : ℝ) (hR : 0 < Rgas) (hg : 0 < g0)
    (p T M : List ℝ) (sp h0 : ℝ)
    (hps : ∀ x ∈ p, 0 < x) (hTs : ∀ x ∈ T, 0 < x) (hMs : ∀ x ∈ M, 0 < x)
    (hchain : List.Chain' (· > ·) p) :
    List.Chain' (· < ·) (gphFromPressureAsc Rgas g0 p T M sp h0) := by
  cases p with
  | nil => simp [gphFromPressureAsc]
  | cons p0 ps =>
    cases T with
    | nil => simp [gphFromPressureAsc]
    | cons T0 Ts =>
      cases M with
      | nil => simp [gphFromPressureAsc]
      | cons M0 Ms =>
        simp only [gphFromPressureAsc]
        exact gphFromPressureAscAux_chain Rgas g0 hR hg ps Ts Ms p0 T0 M0 _
          (hps p0 (by simp)) (hTs T0 (by simp)) (hMs M0 (by simp))
          (fun x hx => hps x (by simp [hx])) (fun x hx => hTs x (by simp [hx]))
          (fun x hx => hMs x (by simp [hx])) hchain

lemma chain_lt_getLastD : ∀ (l : List ℝ) (a d : ℝ),
    List.Chain' (· < ·) (a :: l) → l ≠ [] → a < l.getLastD d := by
  intro l
  induction l with
  | nil => intro a d _ h; exact absurd rfl h
  | cons b l' ih =>
    intro a d hchain _
    obtain ⟨hab, hchain'⟩ := List.chain'_cons.mp hchain
    rw [List.getLastD_cons]
    cases l' with
    | nil => simpa using hab
    | cons c l'' => exact lt_trans hab (ih b b hchain' (by simp))

lemma chain_gt_getLastD : ∀ (l : List ℝ) (a d : ℝ),
    List.Chain' (· > ·) (a :: l) → l ≠ [] → l.getLastD d < a := by
  intro l
  induction l with
  | nil => intro a d _ h; exact absurd rfl h
  | cons b l' ih =>
    intro a d hchain _
    obtain ⟨hab, hchain'⟩ := List.chain'_cons.mp hchain
    rw [List.getLastD_cons]
    cases l' with
    | nil => simpa using hab
    | cons c l'' => exact lt_trans (ih b b hchain' (by simp)) hab

lemma roundtrip_desc (Rgas g0 : ℝ) (hR : 0 < Rgas) (hg : 0 < g0)
    (p T M : List ℝ) (sp h0 : ℝ)
    (hlT : p.length = T.length) (hlM : p.length = M.length)
    (hchain : List.Chain' (· > ·) p)
    (hps : ∀ x ∈ p, 0 < x) (hTs : ∀ x ∈ T, 0 < x) (hMs : ∀ x ∈ M, 0 < x)
    (hsp : 0 < sp) :
    harp_profile_pressure_from_gph Rgas g0
      (harp_profile_gph_from_pressure Rgas g0 p T M sp h0) T M sp h0 = p := by
  have hcond1 : ¬ p.headD 0 < p.getLastD 0 := by
    cases p with
    | nil => simp
    | cons a l =>
      by_cases hl : l = []
      · subst hl; simp
      · rw [List.headD_cons, List.getLastD_cons]
        exact lt_asymm (chain_gt_getLastD l a a hchain hl)
  rw [harp_profile_gph_from_pressure, if_neg hcond1]
  have hchainz : List.Chain' (· < ·) (gphFromPressureAsc Rgas g0 p T M sp h0) :=
    gphFromPressureAsc_chain Rgas g0 hR hg p T M sp h0 hps hTs hMs hchain
  have hcond2 : ¬ (gphFromPressureAsc Rgas g0 p T M sp h0).getLastD 0 <
      (gphFromPressureAsc Rgas g0 p T M sp h0).headD 0 := by
    cases hgz : gphFromPressureAsc Rgas g0 p T M sp h0 with
    | nil => simp
    | cons z0 zs =>
      rw [hgz] at hchainz
      by_cases hz : zs = []
      · subst hz; simp
      · rw [List.headD_cons, List.getLastD_cons]
        exact lt_asymm (chain_lt_getLastD zs z0 z0 hchainz hz)
  rw [harp_profile_pressure_from_gph, if_neg hcond2]
  exact pressureFromGphAsc_inverse Rgas g0 (ne_of_gt hR) (ne_of_gt hg) p T M sp h0
    hlT hlM hsp hps hTs hMs

/-- C5: round trip of the hydrostatic integrators, exactly, in exact real
arithmetic (which implies the spec's `1e-6` relative tolerance): for every
strictly monotonic positive pressure profile — stored surface-first
(decreasing) or top-of-atmosphere-first (increasing) — with positive
temperatures and molar masses and a positive surface pressure, converting to
geopotential height and back returns the original pressure at every level.
The physical constants are arbitrary positive reals. -/
theorem C5_gph_pressure_roundtrip_exact
    (Rgas g0 : ℝ) (hR : 0 < Rgas) (hg : 0 < g0)
    (p T M : List ℝ) (surface_pressure surface_height : ℝ)
    (hlT : p.length = T.length) (hlM : p.length = M.length)
    (hmono : List.Chain' (· > ·) p ∨ List.Chain' (· < ·) p)
    (hppos : ∀ x ∈ p, 0 < x) (hTpos : ∀ x ∈ T, 0 < x) (hMpos : ∀ x ∈ M, 0 < x)
    (hsp : 0 < surface_pressure) :
    harp_profile_pressure_from_gph Rgas g0
      (harp_profile_gph_from_pressure Rgas g0 p T M surface_pressure surface_height)
      T M surface_pressure surface_height = p := by
  rcases hmono with hdesc | hinc
  · exact roundtrip_desc Rgas g0 hR hg p T M _ _ hlT hlM hdesc hppos hTpos hMpos hsp
  · cases hp : p with
    | nil =>
      subst hp
      exact roundtrip_desc Rgas g0 hR hg [] T M _ _ hlT hlM (by simp) hppos hTpos hMpos hsp
    | cons a l =>
      subst hp
      by_cases hl : l = []
      · subst hl
        exact roundtrip_desc Rgas g0 hR hg [a] T M _ _ hlT hlM (by simp) hppos hTpos hMpos hsp
      · have hcond1 : (a :: l).headD 0 < (a :: l).getLastD 0 := by
          rw [List.headD_cons, List.getLastD_cons]
          exact chain_lt_getLastD l a a hinc hl
        rw [harp_profile_gph_from_pressure, if_pos hcond1]
        have hrevchain : List.Chain' (· > ·) (a :: l).reverse := by
          rw [List.chain'_reverse]
          exact hinc
        have hrevpos : ∀ x ∈ (a :: l).reverse, 0 < x := by
          intro x hx; exact hppos x (List.mem_reverse.mp hx)
        have hrevTpos : ∀ x ∈ T.reverse, 0 < x := by
          intro x hx; exact hTpos x (List.mem_reverse.mp hx)
        have hrevMpos : ∀ x ∈ M.reverse, 0 < x := by
          intro x hx; exact hMpos x (List.mem_reverse.mp hx)
        have hlTr : (a :: l).reverse.length = T.reverse.length := by simpa using hlT
        have hlMr : (a :: l).reverse.length = M.reverse.length := by simpa using hlM
        have hchainz : List.Chain' (· < ·)
            (gphFromPressureAsc Rgas g0 (a :: l).reverse T.reverse M.reverse
              surface_pressure surface_height) :=
          gphFromPressureAsc_chain Rgas g0 hR hg _ _ _ _ _ hrevpos hrevTpos hrevMpos hrevchain
        have hlenz : (gphFromPressureAsc Rgas g0 (a :: l).reverse T.reverse M.reverse
            surface_pressure surface_height).length = (a :: l).length := by
          rw [gphFromPressureAsc_length Rgas g0 _ _ _ _ _ hlTr hlMr, List.length_reverse]
        have hcond2 : ((gphFromPressureAsc Rgas g0 (a :: l).reverse T.reverse M.reverse
              surface_pressure surface_height).reverse).getLastD 0 <
            ((gphFromPressureAsc Rgas g0 (a :: l).reverse T.reverse M.reverse
              surface_pressure surface_height).reverse).headD 0 := by
          cases hgz : gphFromPressureAsc Rgas g0 (a :: l).reverse T.reverse M.reverse
              surface_pressure surface_height with
          | nil => rw [hgz] at hlenz; simp at hlenz
          | cons z0 zs =>
            rw [hgz] at hchainz hlenz
            cases zs with
            | nil =>
              simp only [List.length_cons, List.length_nil, List.length_reverse] at hlenz
              exact absurd (List.length_eq_zero.mp (by omega)) hl
            | cons c zs' =>
              have hlt : z0 < (c :: zs').getLastD z0 :=
                chain_lt_getLastD (c :: zs') z0 z0 hchainz (by simp)
              have hlast : (c :: zs').getLast? = some ((c :: zs').getLast (by simp)) :=
                List.getLast?_eq_getLast _ (by simp)
              rw [List.getLastD_eq_getLast?, List.getLast?_reverse, List.headD_eq_head?,
                List.head?_reverse]
              rw [List.getLastD_eq_getLast?, hlast] at hlt
              simp only [List.head?_cons, Option.getD_some, List.getLast?_cons_cons, hlast]
              simpa using hlt
        rw [harp_profile_pressure_from_gph, if_pos hcond2, List.reverse_reverse]
        rw [pressureFromGphAsc_inverse Rgas g0 (ne_of_gt hR) (ne_of_gt hg)
          (a :: l).reverse T.reverse M.reverse _ _ hlTr hlMr hsp hrevpos hrevTpos hrevMpos]
        exact List.reverse_reverse _

/-- C5, witness: the round trip at a concrete two-level surface-first profile
with unit constants. -/
theorem C5_gph_pressure_roundtrip_exact_witness :
    (List.Chain' (· > ·) ([2, 1] : List ℝ) ∨ List.Chain' (· < ·) ([2, 1] : List ℝ)) ∧
    (0 : ℝ) < 3 ∧
    harp_profile_pressure_from_gph 1 1
      (harp_profile_gph_from_pressure 1 1 [2, 1] [1, 1] [1, 1] 3 0)
      [1, 1] [1, 1] 3 0 = [2, 1] := by
  have hmono : List.Chain' (· > ·) ([2, 1] : List ℝ) ∨ List.Chain' (· < ·) ([2, 1] : List ℝ) :=
    Or.inl (by norm_num [List.chain'_cons])
  refine ⟨hmono, by norm_num, ?_⟩
  exact C5_gph_pressure_roundtrip_exact 1 1 (by norm_num) (by norm_num) [2, 1] [1, 1] [1, 1]
    3 0 (by norm_num) (by norm_num) hmono (by norm_num [List.forall_mem_cons])
    (by norm_num [List.forall_mem_cons]) (by norm_num [List.forall_mem_cons]) (by norm_num)

/-! ### Vertical smoothing (`harp-vertical-profiles.c:895-1108`)

`harp_variable_smooth_vertical` mutates the variable's buffer in place; the
embedding returns the status code together with the variable after the call.
`malloc` success is an oracle parameter `allocOk` (the allocation happens after
all validation and before any write).  Each per-block write reads only the
`vector` snapshot taken before the writes, so the written value at an index is
a pure function of the original buffer; `smoothData` computes exactly that. -/

/-- `harp_data_type`; only `double` participates in smoothing. -/
inductive HDataType
  | int8 | int16 | int32 | float | double | hstring
deriving DecidableEq

/-- `harp_dimension_type`. -/
inductive HDimensionType
  | independent | time | latitude | longitude | vertical | spectral
deriving DecidableEq

/-- A HARP variable as the smoothing operator sees it: element type, dimension
kinds, extents, and the flat buffer of its `double` data. -/
structure HVariable where
  data_type : HDataType
  dimension_type : List HDimensionType
  dimension : List Nat
  double_data : List Qn
deriving DecidableEq

/-- `num_dimensions` field. -/
def HVariable.num_dimensions (v : HVariable) : Nat := v.dimension_type.length

/-- `num_elements` field of a well-formed variable: the product of extents. -/
def HVariable.num_elements (v : HVariable) : Nat := v.dimension.prod

/-- `get_unpadded_vector_length`: scan from the back for the first non-NaN
element and return its index plus one; the full length when every element is
NaN. -/
def get_unpadded_vector_length (vector : List Qn) : Nat :=
  match vector.reverse.findIdx? Option.isSome with
  | some r => vector.length - r
  | none => vector.length

/-- The per-time-row valid-level count: the unpadded length of the axis row
when a vertical axis is given, the full vertical extent otherwise. -/
def rowValidCount (axisData : Option (List Qn)) (maxV k : Nat) : Nat :=
  match axisData with
  | none => maxV
  | some ax => get_unpadded_vector_length ((ax.drop (k * maxV)).take maxV)

/-- The `vector[j]` snapshot of the C loop: the variable's value at the block
offset, with the apriori subtracted when present. -/
def smoothVector (aprioriData : Option (List Qn)) (maxV k blockoffset : Nat)
    (data : List Qn) (j : Nat) : Qn :=
  match aprioriData with
  | none => data.getD (blockoffset + j) none
  | some ap => qsub (data.getD (blockoffset + j) none) (ap.getD (k * maxV + j) none)

/-- The value written at vertical index `i` of a block (assuming `i` is below
the valid-level count): `Σ_j avk[i,j]·vector[j]` over non-NaN `j`, plus the
apriori (or NaN when there is no apriori and no valid `j`); the original value
when `vector[i]` is NaN. -/
def smoothValueAt (maxV : Nat) (avkData : List Qn) (aprioriData : Option (List Qn))
    (numVert k blockoffset : Nat) (data : List Qn) (i : Nat) : Qn :=
  if (smoothVector aprioriData maxV k blockoffset data i).isSome then
    let s := (List.range numVert).foldl
      (fun acc j =>
        if (smoothVector aprioriData maxV k blockoffset data j).isSome then
          qadd acc (qmul (avkData.getD ((k * maxV + i) * maxV + j) none)
            (smoothVector aprioriData maxV k blockoffset data j))
        else acc)
      (some 0)
    let num_valid := ((List.range numVert).filter
      (fun j => (smoothVector aprioriData maxV k blockoffset data j).isSome)).length
    match aprioriData with
    | some ap => qadd s (ap.getD (k * maxV + i) none)
    | none => if num_valid = 0 then none else s
  else data.getD (blockoffset + i) none

/-- The buffer after the smoothing loops: index `idx` belongs to time row
`idx / (numBlocks*maxV)`, block offset `idx - idx % maxV`, vertical position
`idx % maxV`; positions at or beyond the row's valid-level count (or outside
the loop range) keep their original values. -/
def smoothData (dim0 numBlocks maxV : Nat) (counts : Nat → Nat) (avkData : List Qn)
    (aprioriData : Option (List Qn)) (data : List Qn) : List Qn :=
  (List.range data.length).map fun idx =>
    if idx < dim0 * numBlocks * maxV then
      if idx % maxV < counts (idx / (numBlocks * maxV)) then
        smoothValueAt maxV avkData aprioriData (counts (idx / (numBlocks * maxV)))
          (idx / (numBlocks * maxV)) (idx - idx % maxV) data (idx % maxV)
      else data.getD idx none
    else data.getD idx none

/-- The apriori validation block (`harp-vertical-profiles.c:986-1005`). -/
def aprioriOk (a : HVariable) : Option HVariable → Bool
  | none => true
  | some ap => decide (ap.data_type = HDataType.double ∧ ap.num_dimensions = 2 ∧
      ap.dimension_type.getD 0 HDimensionType.independent = HDimensionType.time ∧
      ap.dimension_type.getD 1 HDimensionType.independent = HDimensionType.vertical ∧
      ap.dimension.getD 0 0 = a.dimension.getD 0 0 ∧
      ap.dimension.getD 1 0 = a.dimension.getD 1 0)

/-- The vertical-axis validation block (`harp-vertical-profiles.c:1007-1026`). -/
def axisOk (a : HVariable) : Option HVariable → Bool
  | none => true
  | some ax => decide (ax.data_type = HDataType.double ∧ ax.num_dimensions = 2 ∧
      ax.dimension_type.getD 0 HDimensionType.independent = HDimensionType.time ∧
      ax.dimension_type.getD 1 HDimensionType.independent = HDimensionType.vertical ∧
      ax.dimension.getD 0 0 = a.dimension.getD 0 0 ∧
      ax.dimension.getD 1 0 = a.dimension.getD 1 0)

/-- The vertical extent `averaging_kernel->dimension[1]`. -/
def smoothMaxV (a : HVariable) : Nat := a.dimension.getD 1 0

/-- The time extent `variable->dimension[0]`. -/
def smoothDim0 (v : HVariable) : Nat := v.dimension.getD 0 0

/-- `num_blocks = variable->num_elements / dimension[0] / max_vertical`. -/
def smoothNumBlocks (v a : HVariable) : Nat :=
  v.num_elements / smoothDim0 v / smoothMaxV a

/-- The per-row valid-level counts used by a smoothing call. -/
def smoothCounts (a : HVariable) (vertical_axis : Option HVariable) : Nat → Nat :=
  rowValidCount (vertical_axis.map HVariable.double_data) (smoothMaxV a)

/-- `harp_variable_smooth_vertical`: status code paired with the variable after
the call (the buffer is rewritten only on the success path, after all
validations and the allocation). -/
def harp_variable_smooth_vertical (allocOk : Bool)
    (var vertical_axis averaging_kernel apriori : Option HVariable) :
    Int × Option HVariable :=
  match var with
  | none => (-1, none)
  | some v =>
    match averaging_kernel with
    | none => (-1, some v)
    | some a =>
      if v.data_type ≠ HDataType.double then (-1, some v)
      else if ¬ (2 ≤ v.num_dimensions ∧
          v.dimension_type.getD 0 HDimensionType.independent = HDimensionType.time ∧
          v.dimension_type.getD (v.num_dimensions - 1) HDimensionType.independent =
            HDimensionType.vertical) then (-1, some v)
      else if a.data_type ≠ HDataType.double then (-1, some v)
      else if ¬ (a.num_dimensions = 3 ∧
          a.dimension_type.getD 0 HDimensionType.independent = HDimensionType.time ∧
          a.dimension_type.getD 1 HDimensionType.independent = HDimensionType.vertical ∧
          a.dimension_type.getD 2 HDimensionType.independent = HDimensionType.vertical)
          then (-1, some v)
      else if a.dimension.getD 1 0 ≠ a.dimension.getD 2 0 then (-1, some v)
      else if ¬ (v.dimension.getD 0 0 = a.dimension.getD 0 0 ∧
          v.dimension.getD (v.num_dimensions - 1) 0 = a.dimension.getD 1 0) then (-1, some v)
      else if ¬ aprioriOk a apriori then (-1, some v)
      else if ¬ axisOk a vertical_axis then (-1, some v)
      else if ¬ allocOk then (-1, some v)
      else
        (0, some { v with double_data :=
          (smoothData (smoothDim0 v) (smoothNumBlocks v a) (smoothMaxV a)
            (smoothCounts a vertical_axis) a.double_data
            (apriori.map HVariable.double_data) v.double_data) })

lemma smooth_snd_eq_or_success (allocOk : Bool)
    (var vertical_axis averaging_kernel apriori : Option HVariable) :
    (harp_variable_smooth_vertical allocOk var vertical_axis averaging_kernel apriori).2 = var ∨
    (harp_variable_smooth_vertical allocOk var vertical_axis averaging_kernel apriori).1 = 0 := by
  cases var with
  | none => exact Or.inl rfl
  | some v =>
    cases averaging_kernel with
    | none => exact Or.inl rfl
    | some a =>
      simp only [harp_variable_smooth_vertical]
      repeat' split
      all_goals first
        | exact Or.inl rfl
        | exact Or.inr rfl

/-- C7: whenever `harp_variable_smooth_vertical` returns `-1` — for any of the
validation failures or the allocation failure — the variable is completely
unchanged: every failure occurs before any element of the buffer is written. -/
theorem C7_error_leaves_variable_unchanged
    (allocOk : Bool) (var vertical_axis averaging_kernel apriori : Option HVariable)
    (herr : (harp_variable_smooth_vertical allocOk var vertical_axis
      averaging_kernel apriori).1 = -1) :
    (harp_variable_smooth_vertical allocOk var vertical_axis averaging_kernel apriori).2
      = var := by
  rcases smooth_snd_eq_or_success allocOk var vertical_axis averaging_kernel apriori with h | h
  · exact h
  · rw [h] at herr
    exact absurd herr (by decide)

/-- C7, witness: a NULL variable is rejected with `-1` and returned unchanged. -/
theorem C7_error_leaves_variable_unchanged_witness :
    (harp_variable_smooth_vertical true none none none none).1 = -1 ∧
    (harp_variable_smooth_vertical true none none none none).2 = none :=
  ⟨rfl, C7_error_leaves_variable_unchanged true none none none none rfl⟩

lemma get_unpadded_vector_length_all_nan (v : List Qn) (h : ∀ x ∈ v, x = none) :
    get_unpadded_vector_length v = v.length := by
  unfold get_unpadded_vector_length
  have hnone : v.reverse.findIdx? Option.isSome = none := by
    rw [List.findIdx?_eq_none_iff]
    intro x hx
    rw [h x (List.mem_reverse.mp hx)]
    rfl
  rw [hnone]

lemma get_unpadded_vector_length_le (v : List Qn) :
    get_unpadded_vector_length v ≤ v.length := by
  unfold get_unpadded_vector_length
  cases v.reverse.findIdx? Option.isSome <;> simp

lemma rowValidCount_le (axisData : Option (List Qn)) (maxV k : Nat) :
    rowValidCount axisData maxV k ≤ maxV := by
  cases axisData with
  | none => exact le_rfl
  | some ax =>
    refine le_trans (get_unpadded_vector_length_le _) ?_
    rw [List.length_take]
    exact min_le_left _ _

lemma rowValidCount_all_nan (axData : List Qn) (maxV k : Nat)
    (hnan : ∀ j, j < maxV → axData.getD (k * maxV + j) none = none)
    (hlen : k * maxV + maxV ≤ axData.length) :
    rowValidCount (some axData) maxV k = maxV := by
  show get_unpadded_vector_length ((axData.drop (k * maxV)).take maxV) = maxV
  have hslice : ((axData.drop (k * maxV)).take maxV).length = maxV := by
    rw [List.length_take, List.length_drop]
    omega
  rw [get_unpadded_vector_length_all_nan _ ?_, hslice]
  intro x hx
  obtain ⟨i, hi, hix⟩ := List.mem_iff_getElem.mp hx
  have himax : i < maxV := by rwa [hslice] at hi
  have hidrop : i < (axData.drop (k * maxV)).length := by
    rw [List.length_drop]; omega
  rw [List.getElem_take, List.getElem_drop] at hix
  have := hnan i himax
  rw [List.getD_eq_getElem axData none (by omega)] at this
  rw [← hix]
  exact this

lemma smoothData_getD (dim0 numBlocks maxV : Nat) (counts : Nat → Nat) (avkData : List Qn)
    (apData : Option (List Qn)) (data : List Qn) (idx : Nat) (hidx : idx < data.length) :
    (smoothData dim0 numBlocks maxV counts avkData apData data).getD idx none =
      if idx < dim0 * numBlocks * maxV then
        if idx % maxV < counts (idx / (numBlocks * maxV)) then
          smoothValueAt maxV avkData apData (counts (idx / (numBlocks * maxV)))
            (idx / (numBlocks * maxV)) (idx - idx % maxV) data (idx % maxV)
        else data.getD idx none
      else data.getD idx none := by
  unfold smoothData
  rw [List.getD_eq_getElem?_getD, List.getElem?_map]
  simp [List.getElem?_range, hidx]

lemma smoothData_length (dim0 numBlocks maxV : Nat) (counts : Nat → Nat) (avkData : List Qn)
    (apData : Option (List Qn)) (data : List Qn) :
    (smoothData dim0 numBlocks maxV counts avkData apData data).length = data.length := by
  simp [smoothData]

/-- C9: a vertical-axis row consisting entirely of NaN makes
`get_unpadded_vector_length` return the full vector length, so the row's
valid-level count is the full vertical extent `maxV` and the row is smoothed
exactly as it would be with no vertical axis (full extent), rather than being
treated as having zero valid levels. -/
theorem C9_all_nan_axis_row_uses_full_extent :
    (∀ v : List Qn, (∀ x ∈ v, x = none) → get_unpadded_vector_length v = v.length) ∧
    (∀ (axData : List Qn) (maxV k : Nat),
      (∀ j, j < maxV → axData.getD (k * maxV + j) none = none) →
      k * maxV + maxV ≤ axData.length →
      rowValidCount (some axData) maxV k = maxV) ∧
    (∀ (dim0 numBlocks maxV : Nat) (axData avkData : List Qn)
        (apData : Option (List Qn)) (data : List Qn) (k idx : Nat),
      (∀ j, j < maxV → axData.getD (k * maxV + j) none = none) →
      k * maxV + maxV ≤ axData.length →
      idx / (numBlocks * maxV) = k →
      (smoothData dim0 numBlocks maxV (rowValidCount (some axData) maxV) avkData apData
          data).getD idx none =
        (smoothData dim0 numBlocks maxV (rowValidCount none maxV) avkData apData
          data).getD idx none) := by
  refine ⟨get_unpadded_vector_length_all_nan, rowValidCount_all_nan, ?_⟩
  intro dim0 numBlocks maxV axData avkData apData data k idx hnan hlen hk
  by_cases hidx : idx < data.length
  · rw [smoothData_getD _ _ _ _ _ _ _ _ hidx, smoothData_getD _ _ _ _ _ _ _ _ hidx, hk,
      rowValidCount_all_nan axData maxV k hnan hlen]
    rfl
  · have h1 := smoothData_length dim0 numBlocks maxV (rowValidCount (some axData) maxV)
      avkData apData data
    have h2 := smoothData_length dim0 numBlocks maxV (rowValidCount none maxV)
      avkData apData data
    rw [List.getD_eq_getElem?_getD, List.getD_eq_getElem?_getD,
      List.getElem?_eq_none (by omega), List.getElem?_eq_none (by omega)]

/-- C9, witness: a 2-level all-NaN axis row on a one-row variable. -/
theorem C9_all_nan_axis_row_uses_full_extent_witness :
    (∀ j, j < 2 → ([none, none] : List Qn).getD (0 * 2 + j) none = none) ∧
    (0 * 2 + 2 ≤ ([none, none] : List Qn).length) ∧
    rowValidCount (some [none, none]) 2 0 = 2 ∧
    (smoothData 1 1 2 (rowValidCount (some [none, none]) 2) [some 1, some 0, some 0, some 1]
        none [some 5, some 7]).getD 0 none =
      (smoothData 1 1 2 (rowValidCount none 2) [some 1, some 0, some 0, some 1]
        none [some 5, some 7]).getD 0 none := by
  have h1 : ∀ j, j < 2 → ([none, none] : List Qn).getD (0 * 2 + j) none = none := by
    intro j hj
    interval_cases j <;> rfl
  have h2 : 0 * 2 + 2 ≤ ([none, none] : List Qn).length := by simp
  refine ⟨h1, h2, C9_all_nan_axis_row_uses_full_extent.2.1 [none, none] 2 0 h1 h2, ?_⟩
  exact C9_all_nan_axis_row_uses_full_extent.2.2 1 1 2 [none, none]
    [some 1, some 0, some 0, some 1] none [some 5, some 7] 0 0 h1 h2 rfl

lemma smooth_success_inversion (allocOk : Bool)
    (v : HVariable) (vertical_axis averaging_kernel apriori : Option HVariable) (v' : HVariable)
    (h : harp_variable_smooth_vertical allocOk (some v) vertical_axis averaging_kernel apriori
      = (0, some v')) :
    ∃ a, averaging_kernel = some a ∧
      v' = { v with double_data :=
        (smoothData (smoothDim0 v) (smoothNumBlocks v a) (smoothMaxV a)
          (smoothCounts a vertical_axis) a.double_data
          (apriori.map HVariable.double_data) v.double_data) } := by
  cases averaging_kernel with
  | none =>
    injection h with h1 h2
    exact absurd h1 (by decide)
  | some a =>
    refine ⟨a, rfl, ?_⟩
    simp only [harp_variable_smooth_vertical] at h
    repeat' split at h
    all_goals
      first
      | (injection h with h1 h2
         exact absurd h1 (by decide))
      | (injection h with h1 h2
         injection h2 with h3
         exact h3.symm)

/-- C10: on every successful call, `harp_variable_smooth_vertical` keeps the
variable's type and dimensions, keeps the buffer length, and writes only at
positions that lie in the loop range, at vertical index strictly below the
row's valid-level count, and whose apriori-subtracted value (`vector[i]`) is
non-NaN; every other element keeps its original value.  (The averaging kernel,
apriori and vertical-axis arguments are untouched by construction: the
embedding, like the C code, writes only through the variable's buffer.) -/
theorem C10_success_writes_only_valid_vertical_indices
    (allocOk : Bool) (v : HVariable)
    (vertical_axis averaging_kernel apriori : Option HVariable) (v' : HVariable)
    (hcall : harp_variable_smooth_vertical allocOk (some v) vertical_axis averaging_kernel
      apriori = (0, some v')) :
    v'.data_type = v.data_type ∧ v'.dimension_type = v.dimension_type ∧
    v'.dimension = v.dimension ∧ v'.double_data.length = v.double_data.length ∧
    ∀ a, averaging_kernel = some a →
      ∀ idx,
        (¬ idx < smoothDim0 v * smoothNumBlocks v a * smoothMaxV a ∨
         ¬ idx % smoothMaxV a <
            smoothCounts a vertical_axis (idx / (smoothNumBlocks v a * smoothMaxV a)) ∨
         smoothVector (apriori.map HVariable.double_data) (smoothMaxV a)
           (idx / (smoothNumBlocks v a * smoothMaxV a)) (idx - idx % smoothMaxV a)
           v.double_data (idx % smoothMaxV a) = none) →
        v'.double_data.getD idx none = v.double_data.getD idx none := by
  obtain ⟨a, ha, hv'⟩ := smooth_success_inversion allocOk v vertical_axis averaging_kernel
    apriori v' hcall
  subst hv'
  refine ⟨rfl, rfl, rfl, smoothData_length _ _ _ _ _ _ _, ?_⟩
  intro a' ha' idx hcases
  rw [ha] at ha'
  injection ha' with ha'
  subst ha'
  by_cases hidx : idx < v.double_data.length
  · rw [smoothData_getD _ _ _ _ _ _ _ _ hidx]
    by_cases h1 : idx < smoothDim0 v * smoothNumBlocks v a * smoothMaxV a
    · rw [if_pos h1]
      by_cases h2 : idx % smoothMaxV a <
          smoothCounts a vertical_axis (idx / (smoothNumBlocks v a * smoothMaxV a))
      · rw [if_pos h2]
        have hvec : smoothVector (apriori.map HVariable.double_data) (smoothMaxV a)
            (idx / (smoothNumBlocks v a * smoothMaxV a)) (idx - idx % smoothMaxV a)
            v.double_data (idx % smoothMaxV a) = none := by
          rcases hcases with hc | hc | hc
          · exact absurd h1 hc
          · exact absurd h2 hc
          · exact hc
        rw [smoothValueAt, hvec]
        simp only [Option.isSome_none, Bool.false_eq_true, if_false]
        rw [Nat.sub_add_cancel (Nat.mod_le idx (smoothMaxV a))]
      · rw [if_neg h2]
    · rw [if_neg h1]
  · have hlen := smoothData_length (smoothDim0 v) (smoothNumBlocks v a) (smoothMaxV a)
      (smoothCounts a vertical_axis) a.double_data (apriori.map HVariable.double_data)
      v.double_data
    show (smoothData (smoothDim0 v) (smoothNumBlocks v a) (smoothMaxV a)
      (smoothCounts a vertical_axis) a.double_data (apriori.map HVariable.double_data)
      v.double_data).getD idx none = v.double_data.getD idx none
    rw [List.getD_eq_getElem?_getD, List.getD_eq_getElem?_getD,
      List.getElem?_eq_none (by omega), List.getElem?_eq_none (by omega)]

/-- Concrete variable for the C10 witness. -/
def smoothWitVar : HVariable :=
  ⟨HDataType.double, [HDimensionType.time, HDimensionType.vertical], [1, 1], [some 5]⟩

/-- Concrete (identity-free) averaging kernel for the C10 witness. -/
def smoothWitAvk : HVariable :=
  ⟨HDataType.double, [HDimensionType.time, HDimensionType.vertical, HDimensionType.vertical],
    [1, 1, 1], [some 2]⟩

/-- C10, witness: a successful 1×1 call; index 5 lies outside the loop range
and keeps its value. -/
theorem C10_success_writes_only_valid_vertical_indices_witness :
    harp_variable_smooth_vertical true (some smoothWitVar) none (some smoothWitAvk) none =
      (0, some { smoothWitVar with double_data :=
        (smoothData (smoothDim0 smoothWitVar) (smoothNumBlocks smoothWitVar smoothWitAvk)
          (smoothMaxV smoothWitAvk) (smoothCounts smoothWitAvk none) smoothWitAvk.double_data
          none smoothWitVar.double_data) }) ∧
    ({ smoothWitVar with double_data :=
        (smoothData (smoothDim0 smoothWitVar) (smoothNumBlocks smoothWitVar smoothWitAvk)
          (smoothMaxV smoothWitAvk) (smoothCounts smoothWitAvk none) smoothWitAvk.double_data
          none smoothWitVar.double_data) } : HVariable).double_data.getD 5 none =
      smoothWitVar.double_data.getD 5 none := by
  refine ⟨rfl, ?_⟩
  exact (C10_success_writes_only_valid_vertical_indices true smoothWitVar none
    (some smoothWitAvk) none _ rfl).2.2.2.2 smoothWitAvk rfl 5 (Or.inl (by decide))

lemma smoothVector_zero_apriori (apData : List Qn) (maxV k bo : Nat) (data : List Qn) (j : Nat)
    (hz : apData.getD (k * maxV + j) none = some 0) :
    smoothVector (some apData) maxV k bo data j = data.getD (bo + j) none := by
  show qsub (data.getD (bo + j) none) (apData.getD (k * maxV + j) none) =
    data.getD (bo + j) none
  rw [hz]
  cases data.getD (bo + j) none with
  | none => rfl
  | some d => simp [qsub]

lemma identity_foldl (maxV numVert k bo : Nat) (avkData apData data : List Qn) (i : Nat)
    (x : ℚ)
    (hident : ∀ j, j < maxV →
      avkData.getD ((k * maxV + i) * maxV + j) none = some (if i = j then 1 else 0))
    (hzero : ∀ j, j < maxV → apData.getD (k * maxV + j) none = some 0)
    (hnumV : numVert ≤ maxV)
    (hx : data.getD (bo + i) none = some x) :
    ∀ m, m ≤ numVert →
      (List.range m).foldl
        (fun acc j =>
          if (smoothVector (some apData) maxV k bo data j).isSome then
            qadd acc (qmul (avkData.getD ((k * maxV + i) * maxV + j) none)
              (smoothVector (some apData) maxV k bo data j))
          else acc)
        (some 0) = some (if i < m then x else 0) := by
  intro m
  induction m with
  | zero => intro _; simp
  | succ m ih =>
    intro hm
    rw [List.range_succ, List.foldl_append, ih (by omega), List.foldl_cons, List.foldl_nil]
    have hmv : m < maxV := by omega
    rw [smoothVector_zero_apriori apData maxV k bo data m (hzero m hmv), hident m hmv]
    cases hdm : data.getD (bo + m) none with
    | none =>
      have hne : i ≠ m := by
        intro h
        rw [h] at hx
        rw [hx] at hdm
        exact Option.noConfusion hdm
      have hprop : (i < m + 1) = (i < m) := propext (by omega)
      simp only [Option.isSome_none, Bool.false_eq_true, if_false, hprop]
    | some d =>
      simp only [Option.isSome_some, if_true]
      by_cases hie : i = m
      · subst hie
        have hdx : d = x := by
          rw [hx] at hdm
          exact (Option.some.injEq _ _ ▸ hdm).symm
        subst hdx
        simp [qadd, qmul]
      · simp only [if_neg hie]
        have hlt : (i < m + 1) = (i < m) := by
          apply propext
          omega
        simp [qadd, qmul, hlt]

lemma smoothValueAt_identity (maxV : Nat) (avkData apData : List Qn)
    (numVert k bo : Nat) (data : List Qn) (i : Nat)
    (hident : ∀ j, j < maxV →
      avkData.getD ((k * maxV + i) * maxV + j) none = some (if i = j then 1 else 0))
    (hzero : ∀ j, j < maxV → apData.getD (k * maxV + j) none = some 0)
    (hnumV : numVert ≤ maxV) (hi : i < numVert) :
    smoothValueAt maxV avkData (some apData) numVert k bo data i =
      data.getD (bo + i) none := by
  rw [smoothValueAt]
  rw [smoothVector_zero_apriori apData maxV k bo data i (hzero i (by omega))]
  cases hdi : data.getD (bo + i) none with
  | none => simp
  | some x =>
    simp only [Option.isSome_some, if_true]
    rw [identity_foldl maxV numVert k bo avkData apData data i x hident hzero hnumV hdi
      numVert le_rfl]
    rw [if_pos hi, hzero i (by omega)]
    simp [qadd]

/-- C6: with an identity averaging kernel in every time row and an all-zero
apriori, `harp_variable_smooth_vertical` succeeds (returns 0) and leaves every
element of the buffer equal to its input value — including NaN elements, for
any (possibly absent, possibly NaN-padded) vertical axis and hence any per-row
valid-level count. -/
theorem C6_identity_avk_zero_apriori_is_identity
    (v a ap : HVariable) (vertical_axis : Option HVariable)
    (hvtype : v.data_type = HDataType.double)
    (hvdim : 2 ≤ v.num_dimensions)
    (hvhead : v.dimension_type.getD 0 HDimensionType.independent = HDimensionType.time)
    (hvlast : v.dimension_type.getD (v.num_dimensions - 1) HDimensionType.independent =
      HDimensionType.vertical)
    (hbuf : v.double_data.length = v.num_elements)
    (hatype : a.data_type = HDataType.double)
    (hadimt : a.dimension_type =
      [HDimensionType.time, HDimensionType.vertical, HDimensionType.vertical])
    (hadim : a.dimension = [v.dimension.getD 0 0, v.dimension.getD (v.num_dimensions - 1) 0,
      v.dimension.getD (v.num_dimensions - 1) 0])
    (hident : ∀ k, k < smoothDim0 v → ∀ i, i < smoothMaxV a → ∀ j, j < smoothMaxV a →
      a.double_data.getD ((k * smoothMaxV a + i) * smoothMaxV a + j) none =
        some (if i = j then 1 else 0))
    (haptype : ap.data_type = HDataType.double)
    (hapdimt : ap.dimension_type = [HDimensionType.time, HDimensionType.vertical])
    (hapdim : ap.dimension = [a.dimension.getD 0 0, a.dimension.getD 1 0])
    (hzero : ∀ m, m < smoothDim0 v * smoothMaxV a → ap.double_data.getD m none = some 0)
    (haxis : axisOk a vertical_axis = true) :
    harp_variable_smooth_vertical true (some v) vertical_axis (some a) (some ap) =
      (0, some v) := by
  have hsmooth : smoothData (smoothDim0 v) (smoothNumBlocks v a) (smoothMaxV a)
      (smoothCounts a vertical_axis) a.double_data
      ((some ap).map HVariable.double_data) v.double_data = v.double_data := by
    apply List.ext_getElem (smoothData_length _ _ _ _ _ _ _)
    intro idx h1 h2
    rw [← List.getD_eq_getElem (smoothData (smoothDim0 v) (smoothNumBlocks v a) (smoothMaxV a)
        (smoothCounts a vertical_axis) a.double_data ((some ap).map HVariable.double_data)
        v.double_data) none h1,
      ← List.getD_eq_getElem v.double_data none h2,
      smoothData_getD _ _ _ _ _ _ _ _ h2]
    by_cases hr : idx < smoothDim0 v * smoothNumBlocks v a * smoothMaxV a
    · rw [if_pos hr]
      have hr' : idx < smoothDim0 v * (smoothNumBlocks v a * smoothMaxV a) := by
        rw [← Nat.mul_assoc]
        exact hr
      have hprodpos : 0 < smoothNumBlocks v a * smoothMaxV a := by
        rcases Nat.eq_zero_or_pos (smoothNumBlocks v a * smoothMaxV a) with h | h
        · rw [h, Nat.mul_zero] at hr'; omega
        · exact h
      have hmaxpos : 0 < smoothMaxV a := by
        rcases Nat.eq_zero_or_pos (smoothMaxV a) with h | h
        · rw [h, Nat.mul_zero] at hprodpos; omega
        · exact h
      have hk : idx / (smoothNumBlocks v a * smoothMaxV a) < smoothDim0 v := by
        rw [Nat.div_lt_iff_lt_mul hprodpos]
        exact hr'
      have hiv : idx % smoothMaxV a < smoothMaxV a := Nat.mod_lt idx hmaxpos
      by_cases hc : idx % smoothMaxV a <
          smoothCounts a vertical_axis (idx / (smoothNumBlocks v a * smoothMaxV a))
      · rw [if_pos hc]
        simp only [Option.map_some']
        rw [smoothValueAt_identity (smoothMaxV a) a.double_data ap.double_data
          (smoothCounts a vertical_axis (idx / (smoothNumBlocks v a * smoothMaxV a)))
          (idx / (smoothNumBlocks v a * smoothMaxV a)) (idx - idx % smoothMaxV a)
          v.double_data (idx % smoothMaxV a)
          (hident _ hk _ hiv)
          (fun j hj => hzero _ (by
            have := Nat.mul_le_mul_right (smoothMaxV a)
              (Nat.succ_le_of_lt hk)
            calc idx / (smoothNumBlocks v a * smoothMaxV a) * smoothMaxV a + j
                < (idx / (smoothNumBlocks v a * smoothMaxV a) + 1) * smoothMaxV a := by
                  rw [Nat.succ_mul]; omega
              _ ≤ smoothDim0 v * smoothMaxV a := this))
          (rowValidCount_le _ _ _) hc]
        rw [Nat.sub_add_cancel (Nat.mod_le idx (smoothMaxV a))]
      · rw [if_neg hc]
    · rw [if_neg hr]
  show harp_variable_smooth_vertical true (some v) vertical_axis (some a) (some ap) = (0, some v)
  have hap : aprioriOk a (some ap) = true := by
    unfold aprioriOk
    rw [decide_eq_true_eq]
    refine ⟨haptype, ?_, ?_, ?_, ?_, ?_⟩ <;>
      simp [HVariable.num_dimensions, hapdimt, hapdim]
  simp only [harp_variable_smooth_vertical]
  rw [if_neg (by simp [hvtype]),
    if_neg (not_not_intro ⟨hvdim, hvhead, hvlast⟩),
    if_neg (by simp [hatype]),
    if_neg (not_not_intro ⟨by simp [HVariable.num_dimensions, hadimt], by simp [hadimt],
      by simp [hadimt], by simp [hadimt]⟩),
    if_neg (by simp [hadim]),
    if_neg (not_not_intro ⟨by simp [hadim], by simp [hadim]⟩),
    if_neg (by simp [hap]), if_neg (by simp [haxis]), if_neg (by simp)]
  rw [hsmooth]

/-- Concrete variable for the C6 witness. -/
def identWitVar : HVariable :=
  ⟨HDataType.double, [HDimensionType.time, HDimensionType.vertical], [1, 1], [some 5]⟩

/-- Concrete 1×1×1 identity averaging kernel for the C6 witness. -/
def identWitAvk : HVariable :=
  ⟨HDataType.double, [HDimensionType.time, HDimensionType.vertical, HDimensionType.vertical],
    [1, 1, 1], [some 1]⟩

/-- Concrete all-zero apriori for the C6 witness. -/
def identWitApriori : HVariable :=
  ⟨HDataType.double, [HDimensionType.time, HDimensionType.vertical], [1, 1], [some 0]⟩

/-- C6, witness: the identity smoothing applied to a concrete 1×1 variable. -/
theorem C6_identity_avk_zero_apriori_is_identity_witness :
    (∀ k, k < smoothDim0 identWitVar → ∀ i, i < smoothMaxV identWitAvk →
      ∀ j, j < smoothMaxV identWitAvk →
      identWitAvk.double_data.getD
        ((k * smoothMaxV identWitAvk + i) * smoothMaxV identWitAvk + j) none =
          some (if i = j then 1 else 0)) ∧
    (∀ m, m < smoothDim0 identWitVar * smoothMaxV identWitAvk →
      identWitApriori.double_data.getD m none = some 0) ∧
    harp_variable_smooth_vertical true (some identWitVar) none (some identWitAvk)
      (some identWitApriori) = (0, some identWitVar) := by
  have hident : ∀ k, k < smoothDim0 identWitVar → ∀ i, i < smoothMaxV identWitAvk →
      ∀ j, j < smoothMaxV identWitAvk →
      identWitAvk.double_data.getD
        ((k * smoothMaxV identWitAvk + i) * smoothMaxV identWitAvk + j) none =
          some (if i = j then 1 else 0) := by
    decide
  have hzero : ∀ m, m < smoothDim0 identWitVar * smoothMaxV identWitAvk →
      identWitApriori.double_data.getD m none = some 0 := by
    decide
  refine ⟨hident, hzero, ?_⟩
  exact C6_identity_avk_zero_apriori_is_identity identWitVar identWitAvk identWitApriori none
    rfl (by norm_num [HVariable.num_dimensions, identWitVar]) rfl rfl (by rfl) rfl rfl rfl
    hident rfl rfl rfl hzero rfl

/-! ### Collocated-dataset orchestrators (`harp-vertical-profiles.c:1324-1544,
1947-2154`)

The orchestrators call the external container layer (derive, strip, append,
regrid, …), which the spec treats as an assumed-correct collaborator.  Those
calls are modelled as oracle outcomes: for each B-side product of the
collocation result, one `BEntry` records what `get_filtered_product_b`
returned and, for a non-empty product, whether the derive/strip/append calls
succeed and which rows the stripped product contributes to the merged product.
The source product itself is untouched until the post-loop phase (filter by
index, regrid, smoothing), which is a single oracle `post`. -/

/-- A source product, opaque to this model: the loop never touches it. -/
structure HProduct where
  id : Nat
deriving DecidableEq

/-- Oracle outcome of one loop iteration over `dataset_b`'s products. -/
inductive BEntry
  | fetchFail
  | missing
  | empty
  | good (deriveOk stripOk appendOk : Bool) (chunk : List Nat)
deriving DecidableEq

/-- The `for (i = 0; i < ...num_products; i++)` loop shared by both
orchestrators: missing (NULL) and empty products are skipped via `continue`;
a failed derive/strip/append aborts with an error; surviving products are
merged (the first becomes the merged product, later ones are appended). -/
def collocatedLoop : List BEntry → Option (List Nat) → Except String (Option (List Nat))
  | [], acc => Except.ok acc
  | e :: rest, acc =>
    match e with
    | BEntry.fetchFail => Except.error "could not get filtered product"
    | BEntry.missing => collocatedLoop rest acc
    | BEntry.empty => collocatedLoop rest acc
    | BEntry.good deriveOk stripOk appendOk chunk =>
      if ¬ deriveOk then Except.error "could not derive variable"
      else if ¬ stripOk then Except.error "could not remove variable"
      else
        match acc with
        | none => collocatedLoop rest (some chunk)
        | some m =>
          if ¬ appendOk then Except.error "could not append product"
          else collocatedLoop rest (some (m ++ chunk))

/-- Oracle outcomes of the external calls made by
`harp_product_smooth_vertical_with_collocated_dataset` around the loop. -/
structure DatasetSmoothEnv where
  verticalDimPos : Bool
  variablesPresent : Bool
  hasCollocationIndex : Bool
  shallowCopyOk : Bool
  filterOk : Bool
  pairsConsistent : Bool
  bEntries : List BEntry
  post : List Nat → HProduct → Bool × HProduct

/-- `harp_product_smooth_vertical_with_collocated_dataset`: status code,
`harp_errno` message, and the source product after the call. -/
def harp_product_smooth_vertical_with_collocated_dataset (env : DatasetSmoothEnv)
    (product : HProduct) : Int × Option String × HProduct :=
  if ¬ env.verticalDimPos then (-1, some "product has no vertical dimension", product)
  else if ¬ env.variablesPresent then (-1, some "product has no variable", product)
  else if ¬ env.hasCollocationIndex then (-1, some "collocation index not found", product)
  else if ¬ env.shallowCopyOk then (-1, some "could not copy collocation result", product)
  else if ¬ env.filterOk then (-1, some "could not filter collocation result", product)
  else if ¬ env.pairsConsistent then
    (-1, some "product and collocation result are inconsistent", product)
  else
    match collocatedLoop env.bEntries none with
    | Except.error msg => (-1, some msg, product)
    | Except.ok none =>
      (-1, some "collocated dataset does not contain any matching pairs", product)
    | Except.ok (some merged) =>
      match env.post merged product with
      | (false, p') => (-1, some "could not regrid or smooth product", p')
      | (true, p') => (0, none, p')

/-- Oracle outcomes of the external calls made by
`harp_product_get_smoothed_column_using_collocated_dataset` around the loop. -/
structure DatasetColumnEnv where
  firstDimIsTime : Bool
  numDimensionsOk : Bool
  verticalDimPos : Bool
  hasCollocationIndex : Bool
  shallowCopyOk : Bool
  filterOk : Bool
  pairsConsistent : Bool
  bEntries : List BEntry
  post : List Nat → HProduct → Bool × HProduct

/-- `harp_product_get_smoothed_column_using_collocated_dataset`: status code,
`harp_errno` message, and the source product after the call. -/
def harp_product_get_smoothed_column_using_collocated_dataset (env : DatasetColumnEnv)
    (product : HProduct) : Int × Option String × HProduct :=
  if ¬ env.firstDimIsTime then
    (-1, some "first dimension of requested smoothed vertical column should be the time dimension",
      product)
  else if ¬ env.numDimensionsOk then (-1, some "number of dimensions too large", product)
  else if ¬ env.verticalDimPos then (-1, some "product has no vertical dimension", product)
  else if ¬ env.hasCollocationIndex then (-1, some "collocation index not found", product)
  else if ¬ env.shallowCopyOk then (-1, some "could not copy collocation result", product)
  else if ¬ env.filterOk then (-1, some "could not filter collocation result", product)
  else if ¬ env.pairsConsistent then
    (-1, some "product and collocation result are inconsistent", product)
  else
    match collocatedLoop env.bEntries none with
    | Except.error msg => (-1, some msg, product)
    | Except.ok none =>
      (-1, some "collocated dataset does not contain any matching pairs", product)
    | Except.ok (some merged) =>
      match env.post merged product with
      | (false, p') => (-1, some "could not compute smoothed column", p')
      | (true, p') => (0, none, p')

lemma collocatedLoop_skip (e : BEntry) (he : e = BEntry.missing ∨ e = BEntry.empty) :
    ∀ (xs ys : List BEntry) (acc : Option (List Nat)),
      collocatedLoop (xs ++ e :: ys) acc = collocatedLoop (xs ++ ys) acc := by
  intro xs
  induction xs with
  | nil =>
    intro ys acc
    rcases he with rfl | rfl <;> rfl
  | cons x xs ih =>
    intro ys acc
    cases x with
    | fetchFail => rfl
    | missing => exact ih ys acc
    | empty => exact ih ys acc
    | good deriveOk stripOk appendOk chunk =>
      cases acc with
      | none =>
        simp only [collocatedLoop]
        split
        · rfl
        · split
          · rfl
          · exact ih ys (some chunk)
      | some m =>
        simp only [collocatedLoop]
        split
        · rfl
        · split
          · rfl
          · split
            · rfl
            · exact ih ys (some (m ++ chunk))

lemma collocatedLoop_all_skipped :
    ∀ (l : List BEntry), (∀ e ∈ l, e = BEntry.missing ∨ e = BEntry.empty) →
      ∀ acc, collocatedLoop l acc = Except.ok acc := by
  intro l
  induction l with
  | nil => intro _ acc; rfl
  | cons x xs ih =>
    intro hall acc
    rcases hall x (by simp) with rfl | rfl <;>
      exact ih (fun e he => hall e (by simp [he])) acc

/-- C8: in both dataset orchestrators, a missing (NULL) or empty B-side
product is skipped without raising an error (removing it from the dataset does
not change the result at all), and when every B-side product is missing or
empty — so that no product survives the loop — the call fails with the
invalid-argument error "collocated dataset does not contain any matching
pairs" and leaves the source product unmodified. -/
theorem C8_missing_empty_skipped_and_no_matching_pairs_error :
    (∀ (env : DatasetSmoothEnv) (e : BEntry), (e = BEntry.missing ∨ e = BEntry.empty) →
      ∀ (xs ys : List BEntry) (product : HProduct),
        harp_product_smooth_vertical_with_collocated_dataset
          { env with bEntries := xs ++ e :: ys } product =
        harp_product_smooth_vertical_with_collocated_dataset
          { env with bEntries := xs ++ ys } product) ∧
    (∀ (env : DatasetColumnEnv) (e : BEntry), (e = BEntry.missing ∨ e = BEntry.empty) →
      ∀ (xs ys : List BEntry) (product : HProduct),
        harp_product_get_smoothed_column_using_collocated_dataset
          { env with bEntries := xs ++ e :: ys } product =
        harp_product_get_smoothed_column_using_collocated_dataset
          { env with bEntries := xs ++ ys } product) ∧
    (∀ (env : DatasetSmoothEnv) (product : HProduct),
      env.verticalDimPos = true → env.variablesPresent = true →
      env.hasCollocationIndex = true → env.shallowCopyOk = true →
      env.filterOk = true → env.pairsConsistent = true →
      (∀ e ∈ env.bEntries, e = BEntry.missing ∨ e = BEntry.empty) →
      harp_product_smooth_vertical_with_collocated_dataset env product =
        (-1, some "collocated dataset does not contain any matching pairs", product)) ∧
    (∀ (env : DatasetColumnEnv) (product : HProduct),
      env.firstDimIsTime = true → env.numDimensionsOk = true →
      env.verticalDimPos = true → env.hasCollocationIndex = true →
      env.shallowCopyOk = true → env.filterOk = true → env.pairsConsistent = true →
      (∀ e ∈ env.bEntries, e = BEntry.missing ∨ e = BEntry.empty) →
      harp_product_get_smoothed_column_using_collocated_dataset env product =
        (-1, some "collocated dataset does not contain any matching pairs", product)) := by
  refine ⟨?_, ?_, ?_, ?_⟩
  · intro env e he xs ys product
    simp only [harp_product_smooth_vertical_with_collocated_dataset,
      collocatedLoop_skip e he xs ys none]
  · intro env e he xs ys product
    simp only [harp_product_get_smoothed_column_using_collocated_dataset,
      collocatedLoop_skip e he xs ys none]
  · intro env product h1 h2 h3 h4 h5 h6 hall
    simp [harp_product_smooth_vertical_with_collocated_dataset, h1, h2, h3, h4, h5, h6,
      collocatedLoop_all_skipped env.bEntries hall none]
  · intro env product h1 h2 h3 h4 h5 h6 h7 hall
    simp [harp_product_get_smoothed_column_using_collocated_dataset, h1, h2, h3, h4, h5,
      h6, h7, collocatedLoop_all_skipped env.bEntries hall none]

/-- C8, witness: a dataset of one missing and one empty B-side product yields
the "no matching pairs" error and an unchanged product, for both
orchestrators. -/
theorem C8_missing_empty_skipped_and_no_matching_pairs_error_witness :
    (∀ e ∈ [BEntry.missing, BEntry.empty], e = BEntry.missing ∨ e = BEntry.empty) ∧
    harp_product_smooth_vertical_with_collocated_dataset
      ⟨true, true, true, true, true, true, [BEntry.missing, BEntry.empty],
        fun _ p => (true, p)⟩ ⟨37⟩ =
      (-1, some "collocated dataset does not contain any matching pairs", ⟨37⟩) ∧
    harp_product_get_smoothed_column_using_collocated_dataset
      ⟨true, true, true, true, true, true, true, [BEntry.missing, BEntry.empty],
        fun _ p => (true, p)⟩ ⟨37⟩ =
      (-1, some "collocated dataset does not contain any matching pairs", ⟨37⟩) := by
  have hall : ∀ e ∈ [BEntry.missing, BEntry.empty],
      e = BEntry.missing ∨ e = BEntry.empty := by decide
  refine ⟨hall, ?_, ?_⟩
  · exact C8_missing_empty_skipped_and_no_matching_pairs_error.2.2.1
      ⟨true, true, true, true, true, true, [BEntry.missing, BEntry.empty], fun _ p => (true, p)⟩
      ⟨37⟩ rfl rfl rfl rfl rfl rfl hall
  · exact C8_missing_empty_skipped_and_no_matching_pairs_error.2.2.2
      ⟨true, true, true, true, true, true, true, [BEntry.missing, BEntry.empty],
        fun _ p => (true, p)⟩
      ⟨37⟩ rfl rfl rfl rfl rfl rfl rfl hall

end Harp
